import Mathlib

/-! TanksUnreal: tank combat state and AI controller

A shallow embedding of `Source/TanksUnreal_v2/Tank.cpp` and
`Source/TanksUnreal_v2/TankAIController.cpp`.

Conventions of the embedding:

* C++ `float`/`double` values are rationals with exact arithmetic.
* A method of `ATank` is a function `ATank → ATank`; a method of
  `ATankAIController` that drives its tank is a function on the pair of the
  controller and the tank it points to.
* Calls into the host engine that only produce an effect (impulses, widget
  updates, spawning a projectile, blueprint hooks) are appended to the tank's
  `effects` list, in program order.
* Every entry into a state-changing `ATank` method is also appended to the
  tank's `calls` list, so that "how many times was `Die()` invoked" is a
  statement about the embedding.
* Engine functions that need square roots or transcendental functions
  (`FVector::Dist`, `FVector::Normalize`, `FMath::Acos`, `pow`, the constant
  `PI`) are fields of an `Engine` record that every function using them takes
  as its first argument.
* Random draws are arguments: each `FMath::RandRange` / `FMath::FRandRange`
  call takes its outcome from a function of the bounds it passes.
* What a controller tick reads from the game (the roster of active tanks, the
  path finder, the clock) is a `World` record; the controller's timer is its
  `handle` field, and the `Fire` calls its tick methods make are recorded in
  its `fireRequests` field.
-/

namespace TanksUnreal

/-! ## Engine value types -/

/-- Engine type `FVector`: three scalar components. -/
structure FVector where
  X : ℚ
  Y : ℚ
  Z : ℚ
  deriving DecidableEq

/-- Engine type `FVector2D`; the source uses it for (min, max) ranges. -/
structure FVector2D where
  X : ℚ
  Y : ℚ
  deriving DecidableEq

namespace FVector

/-- Componentwise difference, `a - b` in the source. -/
def sub (a b : FVector) : FVector := ⟨a.X - b.X, a.Y - b.Y, a.Z - b.Z⟩

/-- Scaling by a scalar, `v * s` in the source. -/
def scale (v : FVector) (s : ℚ) : FVector := ⟨v.X * s, v.Y * s, v.Z * s⟩

/-- Division by a scalar, `v / s` in the source. -/
def divide (v : FVector) (s : ℚ) : FVector := ⟨v.X / s, v.Y / s, v.Z / s⟩

/-- The engine's `FVector::DotProduct`. -/
def DotProduct (a b : FVector) : ℚ := a.X * b.X + a.Y * b.Y + a.Z * b.Z

/-- Squared length, `X² + Y² + Z²`. -/
def SizeSquared (v : FVector) : ℚ := v.X * v.X + v.Y * v.Y + v.Z * v.Z

end FVector

/-- The engine functions the two source files call that have no exact
rational counterpart.  They are parameters of the embedding. -/
structure Engine where
  /-- The engine's `FVector::Dist` / `FVector::Distance`. -/
  Dist : FVector → FVector → ℚ
  /-- The engine's `FVector::Normalize`, as the value left in the vector. -/
  Normalize : FVector → FVector
  /-- The engine's `FMath::Acos`. -/
  Acos : ℚ → ℚ
  /-- The engine's constant `PI`. -/
  PI : ℚ
  /-- The C library's `pow`. -/
  Pow : ℚ → ℚ → ℚ

/-- What it means for a value `d` to be the Euclidean distance of `a` and `b`:
it is non-negative and its square is the squared length of `a - b`. -/
def IsEuclideanDist (d : ℚ) (a b : FVector) : Prop :=
  0 ≤ d ∧ d * d = (a.sub b).SizeSquared

/-- Modelled from the spec: the engine's `FMath::Clamp` is not under `src/`;
"clamped at both ends" is the usual three-way selection. -/
def Clamp (x lo hi : ℚ) : ℚ :=
  if x < lo then lo else if x < hi then x else hi

/-- Modelled from the spec: the engine's `UKismetMathLibrary::MapRangeClamped`
is not under `src/`.  The spec describes it as the linear map of `value` from
the input range `(inA, inB)` onto the output range `(outA, outB)`, clamped at
both ends: the position of `value` in the input range, clamped to `[0,1]`,
interpolates the output range. -/
def MapRangeClamped (value inA inB outA outB : ℚ) : ℚ :=
  outA + Clamp ((value - inA) / (inB - inA)) 0 1 * (outB - outA)

/-- Modelled from the spec: the engine's `FMath::GetMappedRangeValueClamped`
is not under `src/`; it is the same clamped linear map as `MapRangeClamped`,
with the ranges passed as `FVector2D`. -/
def GetMappedRangeValueClamped (inRange outRange : FVector2D) (value : ℚ) : ℚ :=
  MapRangeClamped value inRange.X inRange.Y outRange.X outRange.Y

/-- Modelled from the spec: the engine's `FVector::RotateAngleAxis` is not
under `src/`; the one rotation the source asks for, 180 degrees about the
vertical axis `(0,0,1)`, negates the two horizontal components. -/
def RotateAngleAxis180Z (v : FVector) : FVector := ⟨-v.X, -v.Y, v.Z⟩

/-! ## The tank -/

/-- An effect a tank method hands to the engine or to a blueprint hook. -/
inductive Effect where
  | AddImpulse (v : FVector)
  | AddAngularImpulseInRadians (v : FVector)
  | SapwnBullet (speed : ℚ)
  | SetChargeBar (value : ℚ)
  | SetHealthBar (value : ℚ)
  | ChargeShotBarSetVisibility (visible : Bool)
  | CollisionRootSetVisibility (visible : Bool)
  | SetSimulatePhysics (enabled : Bool)
  | SetCollisionEnabledQueryAndPhysics
  | SetEnableGravity (enabled : Bool)
  | SetGenerateOverlapEvents (enabled : Bool)
  | SetActorTickEnabled (enabled : Bool)
  | DieEffect
  | MovingAction
  | StopMovingAction
  | UpdateName
  deriving DecidableEq

/-- A record of one entry into a method of `ATank`. -/
inductive Call where
  | Move (amount : ℚ)
  | Turn (amount : ℚ)
  | ChargeShot (speed : ℚ)
  | Fire
  | Damage
  | Die
  | SetupTank
  deriving DecidableEq

/-- The source's `ATankDamager`, as far as `ATank::Damage` reads it. -/
structure ATankDamager where
  /-- Result of `GetActorLocation()`. -/
  Location : FVector
  damageMultiplier : ℚ
  knockbackStrength : ℚ

/-- The state of an `ATank` that the two source files read or write. -/
structure ATank where
  /-- Identity of the object (the value of the `ATank*` pointer). -/
  ptr : ℕ
  IsAlive : Bool
  controlEnabled : Bool
  currentHealth : ℚ
  currentPercent : ℚ
  chargeRate : ℚ
  minMaxBulletSpeed : FVector2D
  damageDistMinMax : FVector2D
  isMoving : Bool
  deltaTime : ℚ
  evalNormal : ℚ
  /-- Result of `GetActorLocation()`. -/
  Location : FVector
  /-- Result of `GetActorForwardVector()`. -/
  ForwardVector : FVector
  /-- Result of `GetActorRightVector()`. -/
  RightVector : FVector
  /-- Result of `GetActorUpVector()`. -/
  UpVector : FVector
  /-- Result of `CollisionRoot->GetMass()`. -/
  Mass : ℚ
  /-- Effects issued so far, oldest first. -/
  effects : List Effect
  /-- Method entries so far, oldest first. -/
  calls : List Call

namespace ATank

/-- The macro `FPSSCALE`, `deltaTime / evalNormal`. -/
def FPSSCALE (t : ATank) : ℚ := t.deltaTime / t.evalNormal

/-- Append one effect to the tank's effect list. -/
def emit (t : ATank) (f : Effect) : ATank := { t with effects := t.effects ++ [f] }

/-- Append one method entry to the tank's call list. -/
def enter (t : ATank) (c : Call) : ATank := { t with calls := t.calls ++ [c] }

/-- The source's `ATank::Move`. -/
def Move (e : Engine) (t : ATank) (amount : ℚ) : ATank :=
  let t := t.enter (Call.Move amount)
  if t.controlEnabled then
    t.emit (Effect.AddImpulse
      (((t.RightVector.scale amount).scale 50).scale (e.Pow t.FPSSCALE 1.3)))
  else t

/-- The source's `ATank::Turn`. -/
def Turn (e : Engine) (t : ATank) (amount : ℚ) : ATank :=
  let t := t.enter (Call.Turn amount)
  if t.controlEnabled then
    t.emit (Effect.AddAngularImpulseInRadians
      (((t.UpVector.scale amount).scale 1000).scale (e.Pow t.FPSSCALE 2)))
  else t

/-- The source's `ATank::Fire`. -/
def Fire (t : ATank) : ATank :=
  let t := t.enter Call.Fire
  if t.controlEnabled then
    let t := t.emit (Effect.SapwnBullet
      (MapRangeClamped t.currentPercent 0 1 t.minMaxBulletSpeed.X t.minMaxBulletSpeed.Y))
    let t := { t with currentPercent := 0 }
    let t := t.emit (Effect.SetChargeBar t.currentPercent)
    t.emit (Effect.ChargeShotBarSetVisibility false)
  else t

/-- The source's `ATank::ChargeShot`. -/
def ChargeShot (t : ATank) (speed : ℚ) : ATank :=
  let t := t.enter (Call.ChargeShot speed)
  if t.controlEnabled ∧ speed > 0.1 then
    let t := t.emit (Effect.ChargeShotBarSetVisibility true)
    let t := { t with currentPercent := t.currentPercent + speed * t.chargeRate * t.deltaTime / t.evalNormal }
    let t := if t.currentPercent ≥ 1 then t.Fire else t
    t.emit (Effect.SetChargeBar t.currentPercent)
  else t

/-- The source's `ATank::Die`. -/
def Die (t : ATank) : ATank :=
  let t := t.enter Call.Die
  let t := { t with IsAlive := false, controlEnabled := false }
  let t := t.emit (Effect.CollisionRootSetVisibility false)
  let t := t.emit (Effect.SetSimulatePhysics false)
  let t := t.emit (Effect.SetGenerateOverlapEvents false)
  let t := t.emit Effect.DieEffect
  t.emit (Effect.SetActorTickEnabled false)

/-- The falloff factor of `ATank::Damage`: the distance mapped from
`damageDistMinMax` onto `(1.0, 0.0)`, clamped. -/
def damageFalloff (t : ATank) (distance : ℚ) : ℚ :=
  MapRangeClamped distance t.damageDistMinMax.X t.damageDistMinMax.Y 1 0

/-- The source's `ATank::Damage`. -/
def Damage (e : Engine) (t : ATank) (damagingActor : ATankDamager) : ATank :=
  let t := t.enter Call.Damage
  if ¬ t.IsAlive then t
  else
    let distance := e.Dist t.Location damagingActor.Location
    let damageTaken := t.damageFalloff distance * damagingActor.damageMultiplier
    let t := { t with currentHealth := t.currentHealth - damageTaken }
    let t := t.emit (Effect.SetHealthBar t.currentHealth)
    let dirvec := damagingActor.Location.sub t.Location
    let dirvec := { dirvec with Z := 50 }
    let dirvec := RotateAngleAxis180Z dirvec
    let dirvec := e.Normalize dirvec
    let t := t.emit (Effect.AddImpulse
      ((((dirvec.scale damagingActor.knockbackStrength).scale t.Mass).scale t.deltaTime).divide
        t.evalNormal))
    if t.currentHealth < 0 then t.Die else t

/-- The source's `ATank::SetupTank`. -/
def SetupTank (t : ATank) : ATank :=
  let t := t.enter Call.SetupTank
  let t := { t with IsAlive := true }
  let t := { t with currentHealth := 1 }
  let t := t.emit (Effect.SetHealthBar t.currentHealth)
  let t := t.emit (Effect.CollisionRootSetVisibility true)
  let t := t.emit (Effect.ChargeShotBarSetVisibility false)
  let t := t.emit (Effect.SetSimulatePhysics true)
  let t := t.emit Effect.SetCollisionEnabledQueryAndPhysics
  let t := t.emit (Effect.SetEnableGravity true)
  let t := t.emit (Effect.SetGenerateOverlapEvents true)
  let t := t.emit (Effect.SetActorTickEnabled true)
  let t := t.emit Effect.StopMovingAction
  t.emit Effect.UpdateName

/-- The source's `ATank::Tick`; `velocityLength` is the value of
`GetVelocity().Length()` in this frame. -/
def Tick (t : ATank) (DeltaTime : ℚ) (velocityLength : ℚ) : ATank :=
  let t := { t with deltaTime := DeltaTime }
  if |velocityLength| > 0.5 then
    if ¬ t.isMoving then
      let t := { t with isMoving := true }
      t.emit Effect.MovingAction
    else t
  else
    if t.isMoving then
      let t := { t with isMoving := false }
      t.emit Effect.StopMovingAction
    else t

end ATank

/-- One call of a public action method of `ATank`, with its arguments. -/
inductive Action where
  | Move (amount : ℚ)
  | Turn (amount : ℚ)
  | ChargeShot (speed : ℚ)
  | Fire
  | Damage (damagingActor : ATankDamager)

namespace ATank

/-- Perform one action call on the tank. -/
def act (e : Engine) (t : ATank) : Action → ATank
  | Action.Move amount => t.Move e amount
  | Action.Turn amount => t.Turn e amount
  | Action.ChargeShot speed => t.ChargeShot speed
  | Action.Fire => t.Fire
  | Action.Damage damagingActor => t.Damage e damagingActor

/-- Perform a sequence of action calls, in order. -/
def run (e : Engine) (t : ATank) (actions : List Action) : ATank :=
  actions.foldl (act e) t

end ATank

/-! ## The AI controller -/

/-- The source's `ATankAIController::State`. -/
inductive State where
  | Fleeing
  | Fighting
  deriving DecidableEq

/-- The state of an `ATankAIController` that the source reads or writes.  The
controlled tank (the member `tank`) is passed to each method next to the
controller. -/
structure ATankAIController where
  state : State
  chassisTargetPos : FVector
  pursueInDriving : Bool
  LastShotTime : ℚ
  minShotDelay : ℚ
  distanceToPower : FVector2D
  /-- The member `handle`: `some seconds` after `SET_TIMER(method, seconds)`,
  `none` for an invalid handle. -/
  handle : Option ℚ
  /-- The positions the tick methods have called `Fire` with so far, oldest
  first. -/
  fireRequests : List FVector

namespace ATankAIController

/-- The source's `ATankAIController::AngleBetweenDirections`: both vectors are
normalized, then the arc cosine of their dot product is returned. -/
def AngleBetweenDirections (e : Engine) (a b : FVector) : ℚ :=
  e.Acos (FVector.DotProduct (e.Normalize a) (e.Normalize b))

/-- The macro `facing_angle(a,b)`, `AngleBetweenDirections(a,b) - PI / 2`. -/
def facing_angle (e : Engine) (a b : FVector) : ℚ :=
  AngleBetweenDirections e a b - e.PI / 2

/-- The source's `ATankAIController::RotateToFacePos`: the returned flag and
the controlled tank after the call. -/
def RotateToFacePos (e : Engine) (tank : ATank) (b : FVector) : Bool × ATank :=
  let a := tank.Location
  let dir := a.sub b
  let tdir := tank.ForwardVector
  let angle := facing_angle e tdir dir
  if |angle| > 0.05 then
    if angle > 0 then (false, tank.Turn e (-1))
    else (false, tank.Turn e 1)
  else (true, tank)

/-- The source's `ATankAIController::GetClosestTank`; `tanks` is the result of
`gamemode->GetActiveTanks()` in iteration order.  The loop state is the pair
of the locals `closest` and `closestDist`. -/
def GetClosestTank (e : Engine) (tank : ATank) (tanks : List ATank) : Option ATank :=
  (tanks.foldl
    (fun (loop : Option ATank × ℚ) (t : ATank) =>
      if t.ptr = tank.ptr then loop
      else
        let distance := e.Dist tank.Location t.Location
        if distance < loop.2 then (some t, loop.2) else loop)
    (none, 10000)).1

/-- The source's `ATankAIController::Fire`: a request to fire at `pos`, made at
time `now` (the macro `NOW`); `FRandRange` is the engine's random draw of this
call as a function of the bounds it is given. -/
def Fire (e : Engine) (c : ATankAIController) (tank : ATank) (now : ℚ) (pos : FVector)
    (FRandRange : ℚ → ℚ → ℚ) : ATankAIController × ATank :=
  if now - c.LastShotTime > c.minShotDelay then
    let tank := { tank with currentPercent :=
      GetMappedRangeValueClamped c.distanceToPower ⟨0.1, 0.83⟩ (e.Dist tank.Location pos) }
    let tank := tank.Fire
    let c := { c with LastShotTime := now }
    let c := { c with
      minShotDelay :=
        FRandRange (GetMappedRangeValueClamped ⟨0.25, 1⟩ ⟨1.5, 0.5⟩ tank.currentPercent) 1.5 }
    (c, tank)
  else (c, tank)

end ATankAIController

/-- One fire request to the AI controller: the time it is made at, the
position aimed at, and the random draw the engine would make for it. -/
structure FireRequest where
  now : ℚ
  pos : FVector
  FRandRange : ℚ → ℚ → ℚ

/-- Serve one fire request on a controller and its tank. -/
def requestFire (e : Engine) (s : ATankAIController × ATank) (r : FireRequest) :
    ATankAIController × ATank :=
  ATankAIController.Fire e s.1 s.2 r.now r.pos r.FRandRange

/-- Serve a sequence of fire requests, in order. -/
def requestFires (e : Engine) (s : ATankAIController × ATank) (rs : List FireRequest) :
    ATankAIController × ATank :=
  rs.foldl (requestFire e) s

/-- The successful requests of a sequence, in order: a request is successful
when serving it entered the tank's `Fire()` (the tank's call list changed).
Each is listed as the pair of its time and the `minShotDelay` the controller
holds right after it. -/
def successfulFires (e : Engine) :
    ATankAIController × ATank → List FireRequest → List (ℚ × ℚ)
  | _, [] => []
  | s, r :: rs =>
    if (requestFire e s r).2.calls ≠ s.2.calls then
      (r.now, (requestFire e s r).1.minShotDelay) :: successfulFires e (requestFire e s r) rs
    else successfulFires e (requestFire e s r) rs

/-! ## The AI controller's timer and tick methods -/

/-- The four `FMath::RandRange(Min, Max)` draws of one `AITick` call, in
program order, each as a function of the bounds it is given. -/
structure AITickDraws where
  chassisX : ℤ → ℤ → ℤ
  chassisY : ℤ → ℤ → ℤ
  pursue : ℤ → ℤ → ℤ
  timer : ℤ → ℤ → ℤ

/-- The engine's contract for `FMath::RandRange(Min, Max)`: the value drawn
lies between the two bounds, both included. -/
def IsRandRange (draw : ℤ → ℤ → ℤ) : Prop :=
  ∀ lo hi : ℤ, lo ≤ hi → lo ≤ draw lo hi ∧ draw lo hi ≤ hi

/-- What a tick of the controller reads from the world: the roster returned
by `gamemode->GetActiveTanks()`, the path finder (`none` for a result other
than `Success`, otherwise the path points), the time `NOW`, and the random
draw a `Fire` call of this tick would make. -/
structure World where
  tanks : List ATank
  FindPathSync : FVector → FVector → Option (List FVector)
  now : ℚ
  FRandRange : ℚ → ℚ → ℚ

namespace ATankAIController

/-- The macro `invert_mode()`. -/
def invert_mode (c : ATankAIController) : ATankAIController :=
  { c with state := if c.state = State.Fleeing then State.Fighting else State.Fleeing }

/-- The source's `ATankAIController::AITick`. -/
def AITick (c : ATankAIController) (draws : AITickDraws) : ATankAIController :=
  let c := { c with
    chassisTargetPos := ⟨draws.chassisX (-4000) 4000, draws.chassisY (-4000) 4000, 0⟩ }
  let c := c.invert_mode
  let c := { c with pursueInDriving := decide (draws.pursue 0 100 < 80) }
  { c with handle := some (draws.timer 5 10 : ℤ) }

/-- A call `Fire(pos)` from a tick method: the call is recorded, then served
by `Fire`. -/
def FireFromTick (e : Engine) (w : World) (c : ATankAIController) (tank : ATank)
    (pos : FVector) : ATankAIController × ATank :=
  Fire e { c with fireRequests := c.fireRequests ++ [pos] } tank w.now pos w.FRandRange

/-- The source's `ATankAIController::DefenseTick`. -/
def DefenseTick (e : Engine) (w : World) (c : ATankAIController) (tank : ATank) :
    ATankAIController × ATank :=
  match GetClosestTank e tank w.tanks with
  | none => (c, tank)
  | some closest =>
    let closeEnough := RotateToFacePos e tank closest.Location
    let s := if closeEnough.1 then FireFromTick e w c closeEnough.2 closest.Location
      else (c, closeEnough.2)
    (s.1, s.2.Move e (-0.5))

/-- The first part of `ATankAIController::DriveTick`: the navigation goal `end`
of this tick and the controller after the "too close to target" check. -/
def DriveGoal (e : Engine) (w : World) (c : ATankAIController) (tank : ATank) :
    FVector × ATankAIController :=
  match GetClosestTank e tank w.tanks with
  | none => (c.chassisTargetPos, c)
  | some closest =>
    if ¬ c.pursueInDriving then (c.chassisTargetPos, c)
    else
      if e.Dist closest.Location tank.Location < 1000 then (closest.Location, c.invert_mode)
      else (closest.Location, c)

/-- The part of `ATankAIController::DriveTick` that follows a successful path
query: drive towards `path[1]`, switch states at the end of the path. -/
def DriveAlong (e : Engine) (c : ATankAIController) (tank : ATank) (pos : FVector)
    (path : List FVector) : ATankAIController × ATank :=
  if h : path.length > 1 then
    let rotated := (RotateToFacePos e tank path[1]).2
    let dist := e.Dist pos path[1]
    let moved := rotated.Move e (GetMappedRangeValueClamped ⟨0, 2000⟩ ⟨0.8, 1⟩ dist)
    if path.length = 2 ∧ dist < 200 then (c.invert_mode, moved) else (c, moved)
  else (c, tank)

/-- The source's `ATankAIController::DriveTick`. -/
def DriveTick (e : Engine) (w : World) (c : ATankAIController) (tank : ATank) :
    ATankAIController × ATank :=
  let pos := tank.Location
  let closest := GetClosestTank e tank w.tanks
  let goal := DriveGoal e w c tank
  match w.FindPathSync pos goal.1 with
  | none => ({ goal.2 with state := State.Fighting }, tank)
  | some path =>
    let s := DriveAlong e goal.2 tank pos path
    match closest with
    | none => s
    | some closest =>
      let target := closest.Location
      let forward := s.2.ForwardVector
      let tdir := pos.sub target
      if |facing_angle e forward tdir| < 0.05 then FireFromTick e w s.1 s.2 target
      else s

/-- The source's `ATankAIController::Tick`; `tank` is the member `tank`
(`none` for `nullptr`). -/
def Tick (e : Engine) (w : World) (c : ATankAIController) (tank : Option ATank) :
    ATankAIController × Option ATank :=
  match tank with
  | none => (c, none)
  | some tank =>
    match c.state with
    | State.Fleeing => ((DriveTick e w c tank).1, some (DriveTick e w c tank).2)
    | State.Fighting => ((DefenseTick e w c tank).1, some (DefenseTick e w c tank).2)

end ATankAIController

/-- A concrete engine for evaluating scenarios.  It is exact on the inputs the
scenarios use (points that differ in one coordinate, unit vectors, exponent 2,
the cosines 0, 1 and -1) and makes no claim elsewhere. -/
def scenarioEngine : Engine where
  Dist a b := |a.X - b.X| + |a.Y - b.Y| + |a.Z - b.Z|
  Normalize v := v
  Acos x := if x = 1 then 0 else if x = -1 then 3.1415926535897932
            else 3.1415926535897932 / 2 - x
  PI := 3.1415926535897932
  Pow x y := if y = 2 then x * x else x

/-- A freshly set-up tank at the origin, facing along the engine's X axis,
with damage range (100, 500) and muzzle speed range (1000, 3000). -/
def scenarioTank : ATank where
  ptr := 0
  IsAlive := true
  controlEnabled := true
  currentHealth := 1
  currentPercent := 0
  chargeRate := 1
  minMaxBulletSpeed := ⟨1000, 3000⟩
  damageDistMinMax := ⟨100, 500⟩
  isMoving := false
  deltaTime := 1
  evalNormal := 1
  Location := ⟨0, 0, 0⟩
  ForwardVector := ⟨1, 0, 0⟩
  RightVector := ⟨0, 1, 0⟩
  UpVector := ⟨0, 0, 1⟩
  Mass := 1
  effects := []
  calls := []

/-- A copy of the scenario tank with another identity, standing on the X axis
at the given coordinate. -/
def tankAt (ptr : ℕ) (x : ℚ) : ATank :=
  { scenarioTank with ptr := ptr, Location := ⟨x, 0, 0⟩ }

/-- The roster of Scenario D: three opponents of the scenario tank, at
distances 50, 30 and 80 from it, in that iteration order. -/
def scenarioRoster : List ATank := [tankAt 1 50, tankAt 2 30, tankAt 3 80]

/-- A controller that has not fired yet, with shot delay 1 and the distances
(0, 4000) mapped onto the charge range. -/
def scenarioController : ATankAIController where
  state := State.Fighting
  chassisTargetPos := ⟨0, 0, 0⟩
  pursueInDriving := true
  LastShotTime := 0
  minShotDelay := 1
  distanceToPower := ⟨0, 4000⟩
  handle := none
  fireRequests := []

/-- A fire request at the given time, aimed at the point (2000, 0, 0), whose
random draw returns the lower bound it is given. -/
def requestAt (now : ℚ) : FireRequest := ⟨now, ⟨2000, 0, 0⟩, fun lo _ => lo⟩

/-- Draws for one `AITick` call: the lower bound for the first coordinate,
the timer and the pursuit roll, the upper bound for the second coordinate. -/
def scenarioDraws : AITickDraws where
  chassisX := fun lo _ => lo
  chassisY := fun _ hi => hi
  pursue := fun lo _ => lo
  timer := fun lo _ => lo

/-- A world at time 0 with the given roster, in which every path query fails. -/
def blockedWorld (tanks : List ATank) : World where
  tanks := tanks
  FindPathSync := fun _ _ => none
  now := 0
  FRandRange := fun lo _ => lo

/-- A world at time 0 with the given roster, in which every path query succeeds
with the straight two-point path from start to goal. -/
def openWorld (tanks : List ATank) : World where
  tanks := tanks
  FindPathSync := fun start goal => some [start, goal]
  now := 0
  FRandRange := fun lo _ => lo

/-- The scenario engine with a `Normalize` that divides by 130, the length of
the vector (0, -120, 50); it is exact on that vector. -/
def knockbackEngine : Engine :=
  { scenarioEngine with Normalize := fun v => v.divide 130 }

/-- A damager standing at (0, 120, 0) with multiplier 1/2 and knockback
strength 13. -/
def scenarioDamager : ATankDamager := ⟨⟨0, 120, 0⟩, 1 / 2, 13⟩

/-- The scenario controller in state `Fleeing`. -/
def fleeingController : ATankAIController :=
  { scenarioController with state := State.Fleeing }

/-! ## Sequences of calls -/

namespace ATank

/-- A sequence of `Tick` calls; each frame gives `DeltaTime` and the value of
`GetVelocity().Length()`. -/
def ticks (t : ATank) (frames : List (ℚ × ℚ)) : ATank :=
  frames.foldl (fun u f => u.Tick f.1 f.2) t

/-- The effects issued by each `Tick` call of a sequence, in order. -/
def tickHooks : ATank → List (ℚ × ℚ) → List (List Effect)
  | _, [] => []
  | t, f :: fs => (t.Tick f.1 f.2).effects.drop t.effects.length :: tickHooks (t.Tick f.1 f.2) fs

end ATank

/-- One call on a tank and its AI controller: an action method of the tank,
`Die()`, `SetupTank()`, or a fire request of the controller. -/
inductive Op where
  | act (a : Action)
  | Die
  | SetupTank
  | AIFire (r : FireRequest)

/-- Perform one call on a controller and its tank. -/
def step (e : Engine) (s : ATankAIController × ATank) : Op → ATankAIController × ATank
  | Op.act a => (s.1, s.2.act e a)
  | Op.Die => (s.1, s.2.Die)
  | Op.SetupTank => (s.1, s.2.SetupTank)
  | Op.AIFire r => requestFire e s r

/-- Perform a sequence of calls, in order. -/
def steps (e : Engine) (s : ATankAIController × ATank) (ops : List Op) :
    ATankAIController × ATank :=
  ops.foldl (step e) s

/-! ## The spec's wording of the two range maps -/

/-- The damage falloff as the spec words it: 1 at or below `min`, 0 at or
above `max`, and the straight line from 1 down to 0 in between. -/
def falloffSpec (min max distance : ℚ) : ℚ :=
  if distance ≤ min then 1
  else if max ≤ distance then 0
  else (max - distance) / (max - min)

/-- The muzzle speed as the spec words it: the charge, clamped to [0,1],
mapped linearly from [0,1] onto the speed range `(lo, hi)`. -/
def muzzleSpeedSpec (lo hi charge : ℚ) : ℚ :=
  if charge ≤ 0 then lo
  else if 1 ≤ charge then hi
  else lo + charge * (hi - lo)

/-- The moving hooks as the spec words them, for a sequence of speeds:
a tick fires the started-moving hook when its speed is above 0.5 and the
previous tick's was not (`prevMoving` is false for the first tick), the
stopped-moving hook when its speed is not above 0.5 and the previous tick's
was, and nothing otherwise. -/
def edgeHooksSpec : Bool → List ℚ → List (List Effect)
  | _, [] => []
  | prevMoving, speed :: rest =>
    (if speed > 0.5 ∧ prevMoving = false then [Effect.MovingAction]
      else if ¬ speed > 0.5 ∧ prevMoving = true then [Effect.StopMovingAction]
      else []) :: edgeHooksSpec (decide (speed > 0.5)) rest

/-- Strict alternation of the two moving hooks: the list is started, stopped,
started, ... when `startedNext` is true, and stopped, started, ... otherwise. -/
def alternatesFrom : Bool → List Effect → Prop
  | _, [] => True
  | startedNext, x :: xs =>
    x = (if startedNext then Effect.MovingAction else Effect.StopMovingAction) ∧
      alternatesFrom (!startedNext) xs

/-- The charge invariant as the spec words it, with the two side conditions it
is claimed under: the charge lies in [0,1], and the charge rate and the frame
factor are non-negative. -/
def chargeInvariant (t : ATank) : Prop :=
  0 ≤ t.currentPercent ∧ t.currentPercent ≤ 1 ∧ 0 ≤ t.chargeRate ∧ 0 ≤ t.FPSSCALE

/-- An active tank other than the controlled one that lies strictly within
10000 units of it. -/
def withinReach (e : Engine) (tank t : ATank) : Bool :=
  decide (t.ptr ≠ tank.ptr ∧ e.Dist tank.Location t.Location < 10000)

/-- The scenario tank after `ChargeShot(0.5)` (charge 1/2) and a lethal
`Damage` call from the range minimum with multiplier 2. -/
def diedChargedTank : ATank :=
  (scenarioTank.ChargeShot 0.5).Damage scenarioEngine ⟨⟨100, 0, 0⟩, 2, 0⟩

/-! ## Damage falloff -/

theorem Clamp_mem (x : ℚ) : 0 ≤ Clamp x 0 1 ∧ Clamp x 0 1 ≤ 1 := by
  unfold Clamp
  split_ifs with h1 h2
  · exact ⟨le_refl _, zero_le_one⟩
  · exact ⟨not_lt.mp h1, le_of_lt h2⟩
  · exact ⟨zero_le_one, le_refl _⟩

theorem Clamp_mono {x y : ℚ} (h : x ≤ y) : Clamp x 0 1 ≤ Clamp y 0 1 := by
  unfold Clamp
  split_ifs <;> linarith

theorem MapRangeClamped_eq_falloffSpec {a b : ℚ} (hab : a < b) (d : ℚ) :
    MapRangeClamped d a b 1 0 = falloffSpec a b d := by
  have hpos : 0 < b - a := sub_pos.mpr hab
  unfold MapRangeClamped falloffSpec Clamp
  by_cases h1 : d ≤ a
  · rw [if_pos h1]
    rcases eq_or_lt_of_le h1 with h | h
    · subst h; simp
    · have : (d - a) / (b - a) < 0 := div_neg_of_neg_of_pos (by linarith) hpos
      rw [if_pos this]; simp
  · rw [if_neg h1]
    have hda : a < d := not_le.mp h1
    have hq : ¬ (d - a) / (b - a) < 0 :=
      not_lt.mpr (div_nonneg (by linarith) hpos.le)
    rw [if_neg hq]
    by_cases h2 : b ≤ d
    · rw [if_pos h2]
      have : ¬ (d - a) / (b - a) < 1 := by
        rw [div_lt_one hpos]; linarith
      rw [if_neg this]; ring
    · rw [if_neg h2]
      have : (d - a) / (b - a) < 1 := by
        rw [div_lt_one hpos]; linarith
      rw [if_pos this]
      field_simp

theorem falloffSpec_mem {a b : ℚ} (hab : a < b) (d : ℚ) :
    0 ≤ falloffSpec a b d ∧ falloffSpec a b d ≤ 1 := by
  have hpos : 0 < b - a := sub_pos.mpr hab
  unfold falloffSpec
  split_ifs with h1 h2
  · exact ⟨zero_le_one, le_refl _⟩
  · exact ⟨le_refl _, zero_le_one⟩
  · constructor
    · exact div_nonneg (by linarith) hpos.le
    · rw [div_le_one hpos]; linarith

theorem falloffSpec_antitone {a b : ℚ} (hab : a < b) {d1 d2 : ℚ} (h : d1 ≤ d2) :
    falloffSpec a b d2 ≤ falloffSpec a b d1 := by
  have hpos : 0 < b - a := sub_pos.mpr hab
  have hm1 := falloffSpec_mem hab d1
  have hm2 := falloffSpec_mem hab d2
  unfold falloffSpec at *
  split_ifs at * with h1 h2 h3 h4 h5 h6
  all_goals first
    | linarith
    | exact hm2.2
    | exact hm1.1
    | exact div_le_div_of_nonneg_right (by linarith) hpos.le

theorem falloffSpec_strict {a b : ℚ} (hab : a < b) {d1 d2 : ℚ}
    (h1 : a ≤ d1) (h : d1 < d2) (h2 : d2 ≤ b) :
    falloffSpec a b d2 < falloffSpec a b d1 := by
  have hpos : 0 < b - a := sub_pos.mpr hab
  have key : ∀ d, a ≤ d → d ≤ b → falloffSpec a b d = (b - d) / (b - a) := by
    intro d hd1 hd2
    unfold falloffSpec
    split_ifs with k1 k2
    · have : d = a := le_antisymm k1 hd1
      subst this; exact (div_self hpos.ne.symm).symm
    · have : d = b := le_antisymm hd2 k2
      subst this; simp
    · rfl
  rw [key d1 h1 (by linarith), key d2 (by linarith) h2]
  exact div_lt_div_of_pos_right (by linarith) hpos

/-! ## Claims about `ATank` -/

/-- C1: a `Damage` call on a living tank leaves
`currentHealth = healthBefore - falloff(distance) * damageMultiplier`, where
`distance` is the engine's distance between the tank and the damager and
`falloff` is the spec's clamped linear falloff over `damageDistMinMax`
(1 at or below the minimum, 0 at or above the maximum). -/
theorem C1_damage_health (e : Engine) (t : ATank) (d : ATankDamager)
    (halive : t.IsAlive = true)
    (hrange : t.damageDistMinMax.X < t.damageDistMinMax.Y) :
    (t.Damage e d).currentHealth =
      t.currentHealth -
        falloffSpec t.damageDistMinMax.X t.damageDistMinMax.Y
          (e.Dist t.Location d.Location) * d.damageMultiplier := by
  rw [← MapRangeClamped_eq_falloffSpec hrange]
  simp only [ATank.Damage, ATank.enter, ATank.emit, ATank.damageFalloff, halive,
    not_true_eq_false, if_false]
  split_ifs <;> simp [ATank.Die, ATank.enter, ATank.emit]

/-- C1 at a concrete call: the scenario tank (range (100, 500), health 1) hit
from the point (300, 0, 0), at Euclidean distance 300, with multiplier 2
ends with health `1 - (1/2) * 2 = 0`. -/
theorem C1_damage_health_witness :
    IsEuclideanDist (scenarioEngine.Dist scenarioTank.Location ⟨300, 0, 0⟩)
        scenarioTank.Location ⟨300, 0, 0⟩ ∧
      (scenarioTank.Damage scenarioEngine ⟨⟨300, 0, 0⟩, 2, 0⟩).currentHealth = 0 :=
  ⟨by norm_num [IsEuclideanDist, scenarioEngine, scenarioTank, FVector.sub,
      FVector.SizeSquared],
    (C1_damage_health scenarioEngine scenarioTank ⟨⟨300, 0, 0⟩, 2, 0⟩ rfl
      (by norm_num [scenarioTank])).trans
      (by norm_num [falloffSpec, scenarioEngine, scenarioTank])⟩

/-- C2: for a damage range with min < max, the falloff used by `Damage` lies
in [0,1] at every distance, never increases with distance, and strictly
decreases between two distances inside the range. -/
theorem C2_falloff_bounds_antitone (t : ATank)
    (hrange : t.damageDistMinMax.X < t.damageDistMinMax.Y) :
    (∀ d, 0 ≤ t.damageFalloff d ∧ t.damageFalloff d ≤ 1) ∧
    (∀ d1 d2, d1 ≤ d2 → t.damageFalloff d2 ≤ t.damageFalloff d1) ∧
    (∀ d1 d2, t.damageDistMinMax.X ≤ d1 → d1 < d2 → d2 ≤ t.damageDistMinMax.Y →
      t.damageFalloff d2 < t.damageFalloff d1) := by
  have heq : ∀ d, t.damageFalloff d =
      falloffSpec t.damageDistMinMax.X t.damageDistMinMax.Y d :=
    fun d => MapRangeClamped_eq_falloffSpec hrange d
  refine ⟨fun d => ?_, fun d1 d2 h => ?_, fun d1 d2 h1 h h2 => ?_⟩
  · rw [heq]; exact falloffSpec_mem hrange d
  · rw [heq, heq]; exact falloffSpec_antitone hrange h
  · rw [heq, heq]; exact falloffSpec_strict hrange h1 h h2

/-- C2 at the scenario tank, whose range (100, 500) has min < max; between
the distances 200 and 300 the falloff strictly drops. -/
theorem C2_falloff_bounds_antitone_witness :
    scenarioTank.damageDistMinMax.X < scenarioTank.damageDistMinMax.Y ∧
      scenarioTank.damageFalloff 300 < scenarioTank.damageFalloff 200 :=
  ⟨by norm_num [scenarioTank],
    (C2_falloff_bounds_antitone scenarioTank (by norm_num [scenarioTank])).2.2 200 300
      (by norm_num [scenarioTank]) (by norm_num) (by norm_num [scenarioTank])⟩

/-- C3: a `Damage` call on a living tank whose resulting health is below 0
enters `Die()` exactly once (the call list grows by `Damage, Die`, the effect
list gains exactly one `DieEffect`) and leaves `IsAlive = false` and
`controlEnabled = false`; when the resulting health is not below 0, `Die()` is
not entered and `IsAlive` is unchanged.  Scenario A: health 1, distance equal
to the range minimum, multiplier 2 gives health -1 and one `Die()`. -/
theorem C3_damage_die_once (e : Engine) (t : ATank) (d : ATankDamager)
    (halive : t.IsAlive = true) :
    ((t.Damage e d).currentHealth < 0 →
      (t.Damage e d).calls = t.calls ++ [Call.Damage, Call.Die] ∧
      (t.Damage e d).effects.count Effect.DieEffect =
        t.effects.count Effect.DieEffect + 1 ∧
      (t.Damage e d).IsAlive = false ∧ (t.Damage e d).controlEnabled = false) ∧
    (¬ (t.Damage e d).currentHealth < 0 →
      (t.Damage e d).calls = t.calls ++ [Call.Damage] ∧
      (t.Damage e d).effects.count Effect.DieEffect = t.effects.count Effect.DieEffect ∧
      (t.Damage e d).IsAlive = t.IsAlive) ∧
    (t.currentHealth = 1 → e.Dist t.Location d.Location = t.damageDistMinMax.X →
      d.damageMultiplier = 2 →
      (t.Damage e d).currentHealth = -1 ∧
      (t.Damage e d).calls.count Call.Die = t.calls.count Call.Die + 1) := by
  simp only [ATank.Damage, ATank.enter, ATank.emit, ATank.damageFalloff, halive,
    not_true_eq_false, if_false]
  refine ⟨?_, ?_, ?_⟩
  · split_ifs with h
    · intro _
      simp [ATank.Die, ATank.enter, ATank.emit, List.count_append]
    · intro h2
      simp only at h2
      exact absurd h2 h
  · split_ifs with h
    · intro h2
      simp only [ATank.Die, ATank.enter, ATank.emit] at h2
      exact absurd h h2
    · intro _
      simp [List.count_append]
  · intro hh hd hm
    have hf : MapRangeClamped t.damageDistMinMax.X t.damageDistMinMax.X
        t.damageDistMinMax.Y 1 0 = 1 := by
      simp [MapRangeClamped, Clamp]
    have hlt : t.currentHealth - MapRangeClamped (e.Dist t.Location d.Location)
        t.damageDistMinMax.X t.damageDistMinMax.Y 1 0 * d.damageMultiplier < 0 := by
      rw [hd, hf, hh, hm]; norm_num
    rw [if_pos hlt]
    simp only [ATank.Die, ATank.enter, ATank.emit]
    refine ⟨?_, ?_⟩
    · rw [hd, hf, hh, hm]; norm_num
    · simp [List.count_append]

/-- C3 on Scenario A: the scenario tank (health 1, range minimum 100) hit from
distance 100 with multiplier 2 ends dead with health -1 after one `Die()`. -/
theorem C3_damage_die_once_witness :
    (scenarioTank.Damage scenarioEngine ⟨⟨100, 0, 0⟩, 2, 0⟩).currentHealth = -1 ∧
      (scenarioTank.Damage scenarioEngine ⟨⟨100, 0, 0⟩, 2, 0⟩).calls.count Call.Die =
        scenarioTank.calls.count Call.Die + 1 :=
  (C3_damage_die_once scenarioEngine scenarioTank ⟨⟨100, 0, 0⟩, 2, 0⟩ rfl).2.2 rfl
    (by norm_num [scenarioEngine, scenarioTank]) rfl

/-- On a tank with `IsAlive = false` and `controlEnabled = false`, one action
call only records its entry: no field other than `calls` changes, and the
recorded entry is not `Die`. -/
theorem act_dead (e : Engine) (t : ATank) (a : Action)
    (h1 : t.IsAlive = false) (h2 : t.controlEnabled = false) :
    ∃ c, c ≠ Call.Die ∧ t.act e a = { t with calls := t.calls ++ [c] } := by
  cases a with
  | Move amount =>
    exact ⟨Call.Move amount, by simp, by simp [ATank.act, ATank.Move, ATank.enter, h2]⟩
  | Turn amount =>
    exact ⟨Call.Turn amount, by simp, by simp [ATank.act, ATank.Turn, ATank.enter, h2]⟩
  | ChargeShot speed =>
    exact ⟨Call.ChargeShot speed, by simp,
      by simp [ATank.act, ATank.ChargeShot, ATank.enter, h2]⟩
  | Fire =>
    exact ⟨Call.Fire, by simp, by simp [ATank.act, ATank.Fire, ATank.enter, h2]⟩
  | Damage d =>
    exact ⟨Call.Damage, by simp, by simp [ATank.act, ATank.Damage, ATank.enter, h1]⟩

/-- On a tank with `IsAlive = false` and `controlEnabled = false`, a sequence
of action calls changes no field other than `calls`, and adds no `Die` entry
to `calls`. -/
theorem run_dead (e : Engine) (actions : List Action) :
    ∀ t : ATank, t.IsAlive = false → t.controlEnabled = false →
      { t.run e actions with calls := t.calls } = t ∧
      (t.run e actions).calls.count Call.Die = t.calls.count Call.Die := by
  induction actions with
  | nil => intro t _ _; exact ⟨rfl, rfl⟩
  | cons a rest ih =>
    intro t h1 h2
    obtain ⟨c, hc, hstep⟩ := act_dead e t a h1 h2
    have hrun : t.run e (a :: rest) = (t.act e a).run e rest := rfl
    have h1' : (t.act e a).IsAlive = false := by rw [hstep]; exact h1
    have h2' : (t.act e a).controlEnabled = false := by rw [hstep]; exact h2
    obtain ⟨ih1, ih2⟩ := ih (t.act e a) h1' h2'
    rw [hrun]
    constructor
    · have : ({ (t.act e a).run e rest with calls := t.calls } : ATank) =
          { ({ (t.act e a).run e rest with calls := (t.act e a).calls } : ATank) with
            calls := t.calls } := rfl
      rw [this, ih1, hstep]
    · rw [ih2, hstep]
      simp [List.count_append, List.count_singleton, hc]

/-- C4: once `Die()` has run on a tank, every later sequence of `Move`,
`Turn`, `ChargeShot`, `Fire` and `Damage` calls, with any arguments and in any
order, leaves health, charge, `IsAlive = false` and `controlEnabled = false`
unchanged, issues no effect at all (no impulse, no projectile) and enters
`Die()` no further time. -/
theorem C4_dead_tank_inert (e : Engine) (t0 : ATank) (actions : List Action) :
    (t0.Die.run e actions).currentHealth = t0.Die.currentHealth ∧
    (t0.Die.run e actions).currentPercent = t0.Die.currentPercent ∧
    (t0.Die.run e actions).IsAlive = false ∧
    (t0.Die.run e actions).controlEnabled = false ∧
    (t0.Die.run e actions).effects = t0.Die.effects ∧
    (t0.Die.run e actions).calls.count Call.Die = t0.Die.calls.count Call.Die := by
  obtain ⟨h, hc⟩ := run_dead e actions t0.Die rfl rfl
  have hf : ∀ f : ATank → ℚ, (∀ u : ATank, ∀ l, f { u with calls := l } = f u) →
      f (t0.Die.run e actions) = f t0.Die := by
    intro f hfl
    rw [← hfl (t0.Die.run e actions) t0.Die.calls, h]
  refine ⟨hf (fun u => u.currentHealth) (fun _ _ => rfl),
    hf (fun u => u.currentPercent) (fun _ _ => rfl), ?_, ?_, ?_, hc⟩
  · have := congrArg ATank.IsAlive h
    simpa using this
  · have := congrArg ATank.controlEnabled h
    simpa using this
  · have := congrArg ATank.effects h
    simpa using this

theorem MapRangeClamped_eq_muzzleSpeedSpec (lo hi c : ℚ) :
    MapRangeClamped c 0 1 lo hi = muzzleSpeedSpec lo hi c := by
  unfold MapRangeClamped muzzleSpeedSpec Clamp
  simp only [sub_zero, div_one]
  by_cases h1 : c ≤ 0
  · rw [if_pos h1]
    rcases eq_or_lt_of_le h1 with h | h
    · subst h; simp
    · rw [if_pos h]; ring
  · rw [if_neg h1, if_neg (fun h => h1 (le_of_lt h))]
    by_cases h2 : 1 ≤ c
    · rw [if_pos h2, if_neg (not_lt.mpr h2)]; ring
    · rw [if_neg h2, if_pos (not_le.mp h2)]

/-- C5: `Fire()` with control enabled spawns exactly one projectile, whose
speed is the clamped linear map of the prior charge from [0,1] onto
`minMaxBulletSpeed`, and leaves the charge at exactly 0 whatever it was; with
control disabled it spawns no projectile (it issues no effect and leaves the
charge as it was). -/
theorem C5_fire (t : ATank) :
    (t.controlEnabled = true →
      t.Fire.currentPercent = 0 ∧
      t.Fire.effects = t.effects ++
        [Effect.SapwnBullet
            (muzzleSpeedSpec t.minMaxBulletSpeed.X t.minMaxBulletSpeed.Y t.currentPercent),
          Effect.SetChargeBar 0, Effect.ChargeShotBarSetVisibility false]) ∧
    (t.controlEnabled = false →
      t.Fire.effects = t.effects ∧ t.Fire.currentPercent = t.currentPercent) := by
  constructor
  · intro h
    simp [ATank.Fire, ATank.enter, ATank.emit, h, MapRangeClamped_eq_muzzleSpeedSpec]
  · intro h
    simp [ATank.Fire, ATank.enter, h]

/-- C5 at a concrete call: the scenario tank charged to 1/2 fires one
projectile of speed 2000, the midpoint of (1000, 3000), and is left with
charge 0. -/
theorem C5_fire_witness :
    ATank.currentPercent (ATank.Fire { scenarioTank with currentPercent := 1 / 2 }) = 0 ∧
      ATank.effects (ATank.Fire { scenarioTank with currentPercent := 1 / 2 }) =
        [Effect.SapwnBullet 2000, Effect.SetChargeBar 0,
          Effect.ChargeShotBarSetVisibility false] := by
  have h := (C5_fire { scenarioTank with currentPercent := 1 / 2 }).1 rfl
  refine ⟨h.1, h.2.trans ?_⟩
  norm_num [scenarioTank, muzzleSpeedSpec]

/-- C6: a `ChargeShot(speed)` call with control enabled and `speed > 0.1`
enters `Fire()` exactly once, spawning one projectile, and ends with charge 0
when `charge + speed * chargeRate * f(dt) >= 1`; otherwise it does not enter
`Fire()`, spawns nothing, and ends with charge
`charge + speed * chargeRate * f(dt)`.  With `speed <= 0.1` the call changes
nothing but the record of its own entry. -/
theorem C6_chargeShot (t : ATank) (speed : ℚ) :
    (t.controlEnabled = true → speed > 0.1 →
      (t.currentPercent + speed * t.chargeRate * t.FPSSCALE ≥ 1 →
        (t.ChargeShot speed).calls = t.calls ++ [Call.ChargeShot speed, Call.Fire] ∧
        (t.ChargeShot speed).currentPercent = 0 ∧
        (t.ChargeShot speed).effects = t.effects ++
          [Effect.ChargeShotBarSetVisibility true,
            Effect.SapwnBullet
              (muzzleSpeedSpec t.minMaxBulletSpeed.X t.minMaxBulletSpeed.Y
                (t.currentPercent + speed * t.chargeRate * t.FPSSCALE)),
            Effect.SetChargeBar 0, Effect.ChargeShotBarSetVisibility false,
            Effect.SetChargeBar 0]) ∧
      (¬ t.currentPercent + speed * t.chargeRate * t.FPSSCALE ≥ 1 →
        (t.ChargeShot speed).calls = t.calls ++ [Call.ChargeShot speed] ∧
        (t.ChargeShot speed).currentPercent =
          t.currentPercent + speed * t.chargeRate * t.FPSSCALE ∧
        (t.ChargeShot speed).effects = t.effects ++
          [Effect.ChargeShotBarSetVisibility true,
            Effect.SetChargeBar (t.currentPercent + speed * t.chargeRate * t.FPSSCALE)])) ∧
    (speed ≤ 0.1 → { t.ChargeShot speed with calls := t.calls } = t) := by
  have hscale : speed * t.chargeRate * t.deltaTime / t.evalNormal =
      speed * t.chargeRate * t.FPSSCALE := by
    unfold ATank.FPSSCALE; ring
  refine ⟨fun hc hs => ⟨fun hge => ?_, fun hlt => ?_⟩, fun hs => ?_⟩
  · have hge' : 1 ≤ t.currentPercent + speed * t.chargeRate * t.deltaTime / t.evalNormal := by
      rw [hscale]; exact hge
    have hge2 : 1 ≤ t.currentPercent + speed * t.chargeRate * t.FPSSCALE := hge
    simp [ATank.ChargeShot, ATank.enter, ATank.emit, ATank.Fire, hc, hs, hge', hge2,
      MapRangeClamped_eq_muzzleSpeedSpec, hscale]
  · have hlt' : ¬ 1 ≤ t.currentPercent + speed * t.chargeRate * t.deltaTime / t.evalNormal := by
      rw [hscale]; exact hlt
    have hlt2 : ¬ 1 ≤ t.currentPercent + speed * t.chargeRate * t.FPSSCALE := hlt
    simp [ATank.ChargeShot, ATank.enter, ATank.emit, hc, hs, hlt', hlt2, hscale]
  · have hs' : ¬ speed > 0.1 := not_lt.mpr hs
    simp [ATank.ChargeShot, ATank.enter, hs']

/-- C6 on Scenario C: `ChargeShot(1.0)` on the scenario tank (control enabled,
`chargeRate = 1`, `f(dt) = 1`, charge 0) enters `Fire()` once and ends with
charge 0. -/
theorem C6_chargeShot_witness :
    (scenarioTank.ChargeShot 1).calls = [Call.ChargeShot 1, Call.Fire] ∧
      (scenarioTank.ChargeShot 1).currentPercent = 0 := by
  have h := ((C6_chargeShot scenarioTank 1).1 rfl (by norm_num)).1
    (by norm_num [scenarioTank, ATank.FPSSCALE])
  exact ⟨h.1, h.2.1⟩

/-- C7, as stated, fails: the tank that died with charge 1/2 is, after
`SetupTank()`, still without control and still charged to 1/2. -/
theorem C7_setupTank_counterexample :
    diedChargedTank.IsAlive = false ∧
    diedChargedTank.SetupTank.controlEnabled = false ∧
    diedChargedTank.SetupTank.currentPercent = 1 / 2 ∧
    ¬ (diedChargedTank.SetupTank.currentHealth = 1 ∧
      diedChargedTank.SetupTank.currentPercent = 0 ∧
      diedChargedTank.SetupTank.IsAlive = true ∧
      diedChargedTank.SetupTank.controlEnabled = true) := by
  have hc : scenarioTank.ChargeShot 0.5 =
      { scenarioTank with
        currentPercent := 1 / 2
        effects := [Effect.ChargeShotBarSetVisibility true, Effect.SetChargeBar (1 / 2)]
        calls := [Call.ChargeShot 0.5] } := by
    norm_num [ATank.ChargeShot, ATank.enter, ATank.emit, scenarioTank]
  have hd : diedChargedTank.IsAlive = false ∧ diedChargedTank.controlEnabled = false ∧
      diedChargedTank.currentPercent = 1 / 2 := by
    unfold diedChargedTank
    rw [hc]
    norm_num [ATank.Damage, ATank.enter, ATank.emit, ATank.damageFalloff, ATank.Die,
      scenarioTank, scenarioEngine, MapRangeClamped, Clamp]
  have h1 : diedChargedTank.SetupTank.controlEnabled = false := hd.2.1
  have h2 : diedChargedTank.SetupTank.currentPercent = 1 / 2 := hd.2.2
  refine ⟨hd.1, h1, h2, ?_⟩
  rintro ⟨-, -, -, h⟩
  rw [h1] at h
  exact Bool.false_ne_true h

/-- C7, amended: for every tank state, `SetupTank()` leaves `currentHealth = 1`
and `IsAlive = true`, and writes neither the charge nor `controlEnabled`, which
keep the values they had before the call. -/
theorem C7_setupTank_amended (t : ATank) :
    t.SetupTank.currentHealth = 1 ∧ t.SetupTank.IsAlive = true ∧
    t.SetupTank.currentPercent = t.currentPercent ∧
    t.SetupTank.controlEnabled = t.controlEnabled :=
  ⟨rfl, rfl, rfl, rfl⟩

/-! ## Claims about `ATankAIController` -/

/-- C8, on Scenario D: with opponents at distances 50, 30 and 80 (in that
iteration order) `GetClosestTank` returns the tank at distance 80, the last
one below the never-updated threshold of 10000, and not the tank at
distance 30. -/
theorem C8_closest_scenarioD :
    (ATankAIController.GetClosestTank scenarioEngine scenarioTank scenarioRoster).map
        (fun t => (t.ptr, scenarioEngine.Dist scenarioTank.Location t.Location)) =
      some (3, 80) ∧
    scenarioRoster.map (fun t => scenarioEngine.Dist scenarioTank.Location t.Location) =
      [50, 30, 80] := by
  constructor
  · norm_num [ATankAIController.GetClosestTank, scenarioRoster, tankAt, scenarioTank,
      scenarioEngine]
  · norm_num [scenarioRoster, tankAt, scenarioTank, scenarioEngine]

/-- A fire request that passes the gate records its time, and the tank's
`Fire()` is entered once. -/
theorem requestFire_pass (e : Engine) (s : ATankAIController × ATank) (r : FireRequest)
    (h : r.now - s.1.LastShotTime > s.1.minShotDelay) :
    (requestFire e s r).1.LastShotTime = r.now ∧
      (requestFire e s r).2.calls = s.2.calls ++ [Call.Fire] := by
  unfold requestFire ATankAIController.Fire
  rw [if_pos h]
  refine ⟨rfl, ?_⟩
  simp only [ATank.Fire, ATank.enter, ATank.emit]
  split_ifs <;> rfl

/-- A fire request that does not pass the gate changes nothing. -/
theorem requestFire_block (e : Engine) (s : ATankAIController × ATank) (r : FireRequest)
    (h : ¬ r.now - s.1.LastShotTime > s.1.minShotDelay) :
    requestFire e s r = s := by
  simp only [requestFire, ATankAIController.Fire, if_neg h]

theorem successfulFires_cons_pass (e : Engine) (s : ATankAIController × ATank)
    (r : FireRequest) (rs : List FireRequest)
    (h : r.now - s.1.LastShotTime > s.1.minShotDelay) :
    successfulFires e s (r :: rs) =
      (r.now, (requestFire e s r).1.minShotDelay) ::
        successfulFires e (requestFire e s r) rs := by
  have hne : (requestFire e s r).2.calls ≠ s.2.calls := by
    rw [(requestFire_pass e s r h).2]; simp
  simp only [successfulFires, if_pos hne]

theorem successfulFires_cons_block (e : Engine) (s : ATankAIController × ATank)
    (r : FireRequest) (rs : List FireRequest)
    (h : ¬ r.now - s.1.LastShotTime > s.1.minShotDelay) :
    successfulFires e s (r :: rs) = successfulFires e s rs := by
  have hs := requestFire_block e s r h
  simp only [successfulFires, hs, ne_eq, not_true_eq_false, if_false]

/-- The first successful request of a sequence comes more than the current
`minShotDelay` after the current `LastShotTime`. -/
theorem successfulFires_head (e : Engine) (rs : List FireRequest) :
    ∀ s : ATankAIController × ATank, ∀ y ∈ (successfulFires e s rs).head?,
      s.1.minShotDelay < y.1 - s.1.LastShotTime := by
  induction rs with
  | nil => intro s y hy; simp [successfulFires] at hy
  | cons r rs ih =>
    intro s y hy
    by_cases h : r.now - s.1.LastShotTime > s.1.minShotDelay
    · rw [successfulFires_cons_pass e s r rs h] at hy
      simp only [List.head?_cons, Option.mem_def, Option.some.injEq] at hy
      rw [← hy]; exact h
    · rw [successfulFires_cons_block e s r rs h] at hy
      exact ih s y hy

theorem successfulFires_chain (e : Engine) (rs : List FireRequest) :
    ∀ s : ATankAIController × ATank,
      List.Chain' (fun a b : ℚ × ℚ => a.2 < b.1 - a.1) (successfulFires e s rs) := by
  induction rs with
  | nil => intro s; simp [successfulFires]
  | cons r rs ih =>
    intro s
    by_cases h : r.now - s.1.LastShotTime > s.1.minShotDelay
    · rw [successfulFires_cons_pass e s r rs h, List.chain'_cons']
      refine ⟨fun y hy => ?_, ih _⟩
      have := successfulFires_head e rs (requestFire e s r) y hy
      rw [(requestFire_pass e s r h).1] at this
      exact this
    · rw [successfulFires_cons_block e s r rs h]
      exact ih s

/-- After a sequence of requests the controller holds the time of the last
successful request and the delay rolled at it (or its initial values when no
request was successful). -/
theorem requestFires_last (e : Engine) (rs : List FireRequest) :
    ∀ s : ATankAIController × ATank,
      ((requestFires e s rs).1.LastShotTime, (requestFires e s rs).1.minShotDelay) =
        (successfulFires e s rs).getLast?.getD (s.1.LastShotTime, s.1.minShotDelay) := by
  induction rs with
  | nil => intro s; rfl
  | cons r rs ih =>
    intro s
    have hrun : requestFires e s (r :: rs) = requestFires e (requestFire e s r) rs := rfl
    rw [hrun, ih]
    by_cases h : r.now - s.1.LastShotTime > s.1.minShotDelay
    · rw [successfulFires_cons_pass e s r rs h, List.getLast?_cons,
        (requestFire_pass e s r h).1]
      rfl
    · rw [successfulFires_cons_block e s r rs h, requestFire_block e s r h]

/-- C9: over every sequence of AI fire requests, any two successive successful
requests are more than (hence at least) `minShotDelay` apart, `minShotDelay`
being the value held after the earlier of the two; and a request made less
than `minShotDelay` after the last successful one leaves the controller and
the tank exactly as they were (charge, `LastShotTime`, `minShotDelay`, and no
entry into the tank's `Fire()`). -/
theorem C9_fire_gate (e : Engine) (s : ATankAIController × ATank)
    (rs : List FireRequest) :
    List.Chain' (fun a b : ℚ × ℚ => a.2 < b.1 - a.1) (successfulFires e s rs) ∧
    (∀ last ∈ (successfulFires e s rs).getLast?, ∀ r : FireRequest,
      r.now - last.1 < last.2 →
        requestFire e (requestFires e s rs) r = requestFires e s rs) := by
  refine ⟨successfulFires_chain e rs s, fun last hlast r hr => ?_⟩
  have hinv := requestFires_last e rs s
  rw [Option.mem_def.mp hlast] at hinv
  simp only [Option.getD_some] at hinv
  have h1 : (requestFires e s rs).1.LastShotTime = last.1 := congrArg Prod.fst hinv
  have h2 : (requestFires e s rs).1.minShotDelay = last.2 := congrArg Prod.snd hinv
  apply requestFire_block
  rw [h1, h2]
  exact not_lt.mpr (le_of_lt hr)

/-- C9 on a concrete run: the scenario controller (last shot at 0, delay 1)
asked to fire at times 2, 3 and 4 succeeds at 2 and 4 only, each time rolling
the delay 1.5; a further request at time 5, less than 1.5 after the last
success, changes nothing. -/
theorem C9_fire_gate_witness :
    successfulFires scenarioEngine (scenarioController, scenarioTank)
        [requestAt 2, requestAt 3, requestAt 4] = [(2, 3 / 2), (4, 3 / 2)] ∧
      requestFire scenarioEngine
          (requestFires scenarioEngine (scenarioController, scenarioTank)
            [requestAt 2, requestAt 3, requestAt 4]) (requestAt 5) =
        requestFires scenarioEngine (scenarioController, scenarioTank)
          [requestAt 2, requestAt 3, requestAt 4] := by
  have hs : successfulFires scenarioEngine (scenarioController, scenarioTank)
      [requestAt 2, requestAt 3, requestAt 4] = [(2, 3 / 2), (4, 3 / 2)] := by
    norm_num [successfulFires, requestFire, ATankAIController.Fire, ATank.Fire, ATank.enter,
      ATank.emit, GetMappedRangeValueClamped, MapRangeClamped, Clamp, scenarioController,
      scenarioTank, scenarioEngine, requestAt]
  exact ⟨hs, (C9_fire_gate scenarioEngine (scenarioController, scenarioTank)
    [requestAt 2, requestAt 3, requestAt 4]).2 (4, 3 / 2) (by rw [hs]; rfl) (requestAt 5)
    (by norm_num [requestAt])⟩

/-- C10: `RotateToFacePos` returns true exactly when the absolute offset angle
(the arc cosine of the dot product of the normalized forward vector and the
normalized tank-minus-target direction, minus `PI / 2`) is at most 0.05, and
then leaves the tank untouched (no `Turn`); otherwise it returns false and
enters `Turn` exactly once, `Turn(-1)` for a positive offset and `Turn(1)` for
a negative one. -/
theorem C10_rotateToFacePos (e : Engine) (tank : ATank) (b : FVector) :
    ATankAIController.facing_angle e tank.ForwardVector (tank.Location.sub b) =
      e.Acos (FVector.DotProduct (e.Normalize tank.ForwardVector)
        (e.Normalize (tank.Location.sub b))) - e.PI / 2 ∧
    ((ATankAIController.RotateToFacePos e tank b).1 = true ↔
      |ATankAIController.facing_angle e tank.ForwardVector (tank.Location.sub b)| ≤ 0.05) ∧
    (|ATankAIController.facing_angle e tank.ForwardVector (tank.Location.sub b)| ≤ 0.05 →
      (ATankAIController.RotateToFacePos e tank b).2 = tank) ∧
    (¬ |ATankAIController.facing_angle e tank.ForwardVector (tank.Location.sub b)| ≤ 0.05 →
      (ATankAIController.RotateToFacePos e tank b).1 = false ∧
      (0 < ATankAIController.facing_angle e tank.ForwardVector (tank.Location.sub b) →
        (ATankAIController.RotateToFacePos e tank b).2 = tank.Turn e (-1) ∧
        (ATankAIController.RotateToFacePos e tank b).2.calls =
          tank.calls ++ [Call.Turn (-1)]) ∧
      (ATankAIController.facing_angle e tank.ForwardVector (tank.Location.sub b) < 0 →
        (ATankAIController.RotateToFacePos e tank b).2 = tank.Turn e 1 ∧
        (ATankAIController.RotateToFacePos e tank b).2.calls =
          tank.calls ++ [Call.Turn 1])) := by
  have hcalls : ∀ amount : ℚ, (tank.Turn e amount).calls = tank.calls ++ [Call.Turn amount] := by
    intro amount
    simp only [ATank.Turn, ATank.enter, ATank.emit]
    split_ifs <;> rfl
  refine ⟨rfl, ?_, ?_, ?_⟩
  · unfold ATankAIController.RotateToFacePos
    constructor
    · intro h
      by_contra hgt
      have hgt2 : |ATankAIController.facing_angle e tank.ForwardVector
          (tank.Location.sub b)| > 0.05 := not_le.mp hgt
      simp only [if_pos hgt2] at h
      split_ifs at h
    · intro hle
      simp only [if_neg (not_lt.mpr hle)]
  · intro hle
    unfold ATankAIController.RotateToFacePos
    simp only [if_neg (not_lt.mpr hle)]
  · intro hgt
    have hgt2 : |ATankAIController.facing_angle e tank.ForwardVector
        (tank.Location.sub b)| > 0.05 := not_le.mp hgt
    unfold ATankAIController.RotateToFacePos
    simp only [if_pos hgt2]
    refine ⟨?_, ?_, ?_⟩
    · split_ifs <;> rfl
    · intro hpos
      simp only [gt_iff_lt, if_pos hpos]
      exact ⟨trivial, hcalls (-1)⟩
    · intro hneg
      simp only [gt_iff_lt, if_neg (not_lt.mpr (le_of_lt hneg))]
      exact ⟨trivial, hcalls 1⟩

/-- C10 at two concrete poses of the scenario tank (forward vector (1,0,0)):
a target at (0,-1,0) has offset angle 0 and is reported as faced with no
`Turn`; a target at (1,0,0) has a positive offset angle and gets one
`Turn(-1)`. -/
theorem C10_rotateToFacePos_witness :
    ((ATankAIController.RotateToFacePos scenarioEngine scenarioTank ⟨0, -1, 0⟩).1 = true ∧
      (ATankAIController.RotateToFacePos scenarioEngine scenarioTank ⟨0, -1, 0⟩).2 =
        scenarioTank) ∧
    ((ATankAIController.RotateToFacePos scenarioEngine scenarioTank ⟨1, 0, 0⟩).1 = false ∧
      (ATankAIController.RotateToFacePos scenarioEngine scenarioTank ⟨1, 0, 0⟩).2.calls =
        [Call.Turn (-1)]) := by
  have hface : |ATankAIController.facing_angle scenarioEngine scenarioTank.ForwardVector
      (scenarioTank.Location.sub ⟨0, -1, 0⟩)| ≤ 0.05 := by
    norm_num [ATankAIController.facing_angle, ATankAIController.AngleBetweenDirections,
      FVector.DotProduct, FVector.sub, scenarioEngine, scenarioTank]
  have hoff : (0 : ℚ) < ATankAIController.facing_angle scenarioEngine
      scenarioTank.ForwardVector (scenarioTank.Location.sub ⟨1, 0, 0⟩) := by
    norm_num [ATankAIController.facing_angle, ATankAIController.AngleBetweenDirections,
      FVector.DotProduct, FVector.sub, scenarioEngine, scenarioTank]
  have hnot : ¬ |ATankAIController.facing_angle scenarioEngine scenarioTank.ForwardVector
      (scenarioTank.Location.sub ⟨1, 0, 0⟩)| ≤ 0.05 := by
    rw [abs_of_pos hoff]
    norm_num [ATankAIController.facing_angle, ATankAIController.AngleBetweenDirections,
      FVector.DotProduct, FVector.sub, scenarioEngine, scenarioTank]
  have h1 := C10_rotateToFacePos scenarioEngine scenarioTank ⟨0, -1, 0⟩
  have h2 := C10_rotateToFacePos scenarioEngine scenarioTank ⟨1, 0, 0⟩
  exact ⟨⟨h1.2.1.mpr hface, h1.2.2.1 hface⟩,
    ⟨(h2.2.2.2 hnot).1, ((h2.2.2.2 hnot).2.1 hoff).2⟩⟩

/-! ## Claims about the re-plan timer and the tick methods -/

theorem invert_mode_state (c : ATankAIController) :
    (c.state = State.Fleeing → c.invert_mode.state = State.Fighting) ∧
    (c.state = State.Fighting → c.invert_mode.state = State.Fleeing) := by
  constructor <;> intro h <;> simp [ATankAIController.invert_mode, h]

/-- C11: one `AITick` call, whatever the controller state and whatever the
engine draws within the bounds it is given, toggles `state` exactly once
(Fleeing becomes Fighting, Fighting becomes Fleeing), sets the wander point to
a point with both horizontal coordinates in [-4000, 4000] and vertical
coordinate 0, and sets the timer to a delay within [5, 10] seconds. -/
theorem C11_aiTick_replan (c : ATankAIController) (draws : AITickDraws)
    (hx : IsRandRange draws.chassisX) (hy : IsRandRange draws.chassisY)
    (ht : IsRandRange draws.timer) :
    (c.state = State.Fleeing → (c.AITick draws).state = State.Fighting) ∧
    (c.state = State.Fighting → (c.AITick draws).state = State.Fleeing) ∧
    (-4000 ≤ (c.AITick draws).chassisTargetPos.X ∧
      (c.AITick draws).chassisTargetPos.X ≤ 4000) ∧
    (-4000 ≤ (c.AITick draws).chassisTargetPos.Y ∧
      (c.AITick draws).chassisTargetPos.Y ≤ 4000) ∧
    (c.AITick draws).chassisTargetPos.Z = 0 ∧
    ∃ delay : ℚ, (c.AITick draws).handle = some delay ∧ 5 ≤ delay ∧ delay ≤ 10 := by
  have hX := hx (-4000) 4000 (by norm_num)
  have hY := hy (-4000) 4000 (by norm_num)
  have hT := ht 5 10 (by norm_num)
  refine ⟨?_, ?_, ?_, ?_, rfl, ⟨_, rfl, ?_, ?_⟩⟩
  · intro h
    simp [ATankAIController.AITick, ATankAIController.invert_mode, h]
  · intro h
    simp [ATankAIController.AITick, ATankAIController.invert_mode, h]
  · simp only [ATankAIController.AITick, ATankAIController.invert_mode]
    exact ⟨by exact_mod_cast hX.1, by exact_mod_cast hX.2⟩
  · simp only [ATankAIController.AITick, ATankAIController.invert_mode]
    exact ⟨by exact_mod_cast hY.1, by exact_mod_cast hY.2⟩
  · exact_mod_cast hT.1
  · exact_mod_cast hT.2

/-- C11 on concrete draws: from the scenario controller (state Fighting) one
`AITick` with the scenario draws gives state Fleeing, wander point
(-4000, 4000, 0) and a timer of 5 seconds. -/
theorem C11_aiTick_replan_witness :
    (scenarioController.AITick scenarioDraws).state = State.Fleeing ∧
      (scenarioController.AITick scenarioDraws).chassisTargetPos = ⟨-4000, 4000, 0⟩ ∧
      (scenarioController.AITick scenarioDraws).handle = some 5 := by
  have h := C11_aiTick_replan scenarioController scenarioDraws
    (fun lo hi hle => ⟨le_refl lo, hle⟩) (fun lo hi hle => ⟨hle, le_refl hi⟩)
    (fun lo hi hle => ⟨le_refl lo, hle⟩)
  refine ⟨h.2.1 rfl, ?_, ?_⟩
  · norm_num [ATankAIController.AITick, ATankAIController.invert_mode, scenarioController,
      scenarioDraws]
  · norm_num [ATankAIController.AITick, ATankAIController.invert_mode, scenarioController,
      scenarioDraws]

/-- The "too close to target" check of `DriveTick` changes nothing of the
controller but its state. -/
theorem DriveGoal_snd (e : Engine) (w : World) (c : ATankAIController) (tank : ATank) :
    (ATankAIController.DriveGoal e w c tank).2 =
      { c with state := (ATankAIController.DriveGoal e w c tank).2.state } := by
  unfold ATankAIController.DriveGoal
  split
  · rfl
  · split_ifs <;> rfl

/-- C13: a `DriveTick` whose path query does not succeed ends with
`state = Fighting`, whatever the opponent, the pursuit flag and the wander
point are; the rest of the controller and the whole tank are as before the
tick, so no `Move`, no `Turn` and no fire request was issued. -/
theorem C13_driveTick_path_failure (e : Engine) (w : World) (c : ATankAIController)
    (tank : ATank)
    (hfail : w.FindPathSync tank.Location (ATankAIController.DriveGoal e w c tank).1 = none) :
    (ATankAIController.DriveTick e w c tank).1 = { c with state := State.Fighting } ∧
    (ATankAIController.DriveTick e w c tank).2 = tank ∧
    (ATankAIController.DriveTick e w c tank).2.calls = tank.calls ∧
    (ATankAIController.DriveTick e w c tank).1.fireRequests = c.fireRequests := by
  have h : ATankAIController.DriveTick e w c tank =
      ({ (ATankAIController.DriveGoal e w c tank).2 with state := State.Fighting }, tank) := by
    simp only [ATankAIController.DriveTick, hfail]
  have hc : ({ (ATankAIController.DriveGoal e w c tank).2 with state := State.Fighting } :
      ATankAIController) = { c with state := State.Fighting } := by
    rw [DriveGoal_snd]
  rw [h, hc]
  exact ⟨rfl, rfl, rfl, rfl⟩

/-- C13 on a concrete tick: the fleeing scenario controller, in a world where
every path query fails and an opponent stands 1 unit away, ends the tick in
state Fighting with its tank untouched. -/
theorem C13_driveTick_path_failure_witness :
    (ATankAIController.DriveTick scenarioEngine (blockedWorld [tankAt 1 1])
        fleeingController scenarioTank).1.state = State.Fighting ∧
      (ATankAIController.DriveTick scenarioEngine (blockedWorld [tankAt 1 1])
        fleeingController scenarioTank).2 = scenarioTank := by
  have h := C13_driveTick_path_failure scenarioEngine (blockedWorld [tankAt 1 1])
    fleeingController scenarioTank rfl
  exact ⟨by rw [h.1], h.2.1⟩

/-! ## Further claims about `ATank::Damage` -/

/-- The effects of a `Damage` call on a living tank start with the health bar
update and the knockback impulse. -/
theorem Damage_effects (e : Engine) (t : ATank) (d : ATankDamager)
    (halive : t.IsAlive = true) :
    ∃ rest, (t.Damage e d).effects = t.effects ++
      Effect.SetHealthBar (t.currentHealth -
          t.damageFalloff (e.Dist t.Location d.Location) * d.damageMultiplier) ::
        Effect.AddImpulse
          (((((e.Normalize (RotateAngleAxis180Z
              { d.Location.sub t.Location with Z := 50 })).scale d.knockbackStrength).scale
                t.Mass).scale t.deltaTime).divide t.evalNormal) :: rest := by
  simp only [ATank.Damage, ATank.enter, ATank.emit, ATank.damageFalloff, halive,
    not_true_eq_false, if_false]
  split_ifs
  · refine ⟨[Effect.CollisionRootSetVisibility false, Effect.SetSimulatePhysics false,
      Effect.SetGenerateOverlapEvents false, Effect.DieEffect,
      Effect.SetActorTickEnabled false], ?_⟩
    simp [ATank.Die, ATank.enter, ATank.emit]
  · exact ⟨[], by simp⟩

/-- C14, as stated, fails: the scenario tank at the origin, hit by a damager
at (0, 120, 0), receives the impulse (0, -12, 5), whose horizontal part has
the negative dot product -1440 with the horizontal vector (0, 120) from the
tank to the damager: the tank is pushed away from the damager.  The engine
used normalizes the knockback vector (0, -120, 50) exactly. -/
theorem C14_knockback_counterexample :
    (knockbackEngine.Normalize ⟨0, -120, 50⟩).SizeSquared = 1 ∧
    (scenarioTank.Damage knockbackEngine scenarioDamager).effects =
      [Effect.SetHealthBar (21 / 40), Effect.AddImpulse ⟨0, -12, 5⟩] ∧
    (0 : ℚ) * (scenarioDamager.Location.X - scenarioTank.Location.X) +
      (-12) * (scenarioDamager.Location.Y - scenarioTank.Location.Y) = -1440 := by
  refine ⟨?_, ?_, ?_⟩
  · norm_num [knockbackEngine, FVector.divide, FVector.SizeSquared]
  · norm_num [ATank.Damage, ATank.enter, ATank.emit, ATank.damageFalloff, MapRangeClamped,
      Clamp, RotateAngleAxis180Z, FVector.sub, FVector.scale, FVector.divide, knockbackEngine,
      scenarioEngine, scenarioTank, scenarioDamager]
  · norm_num [scenarioDamager, scenarioTank]

/-- C14, amended: for a `Damage` call on a living tank whose horizontal
position differs from the damager's, with positive `knockbackStrength`, mass
and frame factor, and an engine `Normalize` that returns a positive multiple
of the knockback vector, the impulse applied pushes the tank away from the
damager: its horizontal part has a negative dot product with the horizontal
vector from the tank to the damager. -/
theorem C14_knockback_amended (e : Engine) (t : ATank) (d : ATankDamager)
    (halive : t.IsAlive = true)
    (hpos : d.Location.X ≠ t.Location.X ∨ d.Location.Y ≠ t.Location.Y)
    (hk : 0 < d.knockbackStrength) (hm : 0 < t.Mass) (hf : 0 < t.FPSSCALE)
    (hn : ∃ k : ℚ, 0 < k ∧
      e.Normalize (RotateAngleAxis180Z { d.Location.sub t.Location with Z := 50 }) =
        (RotateAngleAxis180Z { d.Location.sub t.Location with Z := 50 }).scale k) :
    ∃ impulse rest,
      (t.Damage e d).effects = t.effects ++
        Effect.SetHealthBar (t.Damage e d).currentHealth :: Effect.AddImpulse impulse :: rest ∧
      impulse.X * (d.Location.X - t.Location.X) +
        impulse.Y * (d.Location.Y - t.Location.Y) < 0 := by
  obtain ⟨k, hk0, hnorm⟩ := hn
  obtain ⟨rest, hrest⟩ := Damage_effects e t d halive
  have hhealth : (t.Damage e d).currentHealth = t.currentHealth -
      t.damageFalloff (e.Dist t.Location d.Location) * d.damageMultiplier := by
    simp only [ATank.Damage, ATank.enter, ATank.emit, ATank.damageFalloff, halive,
      not_true_eq_false, if_false]
    split_ifs <;> simp [ATank.Die, ATank.enter, ATank.emit]
  refine ⟨_, rest, by rw [hhealth]; exact hrest, ?_⟩
  rw [hnorm]
  simp only [RotateAngleAxis180Z, FVector.sub, FVector.scale, FVector.divide]
  have hsq : 0 < (d.Location.X - t.Location.X) ^ 2 + (d.Location.Y - t.Location.Y) ^ 2 := by
    rcases hpos with h | h
    · have : 0 < (d.Location.X - t.Location.X) ^ 2 := by
        apply sq_pos_of_ne_zero
        exact sub_ne_zero.mpr h
      positivity
    · have : 0 < (d.Location.Y - t.Location.Y) ^ 2 := by
        apply sq_pos_of_ne_zero
        exact sub_ne_zero.mpr h
      positivity
  have hfactor : 0 < k * d.knockbackStrength * t.Mass * t.FPSSCALE := by positivity
  have hrw : -(d.Location.X - t.Location.X) * k * d.knockbackStrength * t.Mass * t.deltaTime /
        t.evalNormal * (d.Location.X - t.Location.X) +
      -(d.Location.Y - t.Location.Y) * k * d.knockbackStrength * t.Mass * t.deltaTime /
        t.evalNormal * (d.Location.Y - t.Location.Y) =
      -(((d.Location.X - t.Location.X) ^ 2 + (d.Location.Y - t.Location.Y) ^ 2) *
        (k * d.knockbackStrength * t.Mass * t.FPSSCALE)) := by
    unfold ATank.FPSSCALE
    ring
  rw [hrw]
  exact neg_neg_of_pos (mul_pos hsq hfactor)

/-- C14 amended, at the concrete call of the counterexample: the impulse on
the scenario tank hit from (0, 120, 0) points away from the damager. -/
theorem C14_knockback_amended_witness :
    ∃ impulse rest,
      (scenarioTank.Damage knockbackEngine scenarioDamager).effects = scenarioTank.effects ++
        Effect.SetHealthBar (scenarioTank.Damage knockbackEngine scenarioDamager).currentHealth ::
          Effect.AddImpulse impulse :: rest ∧
      impulse.X * (scenarioDamager.Location.X - scenarioTank.Location.X) +
        impulse.Y * (scenarioDamager.Location.Y - scenarioTank.Location.Y) < 0 :=
  C14_knockback_amended knockbackEngine scenarioTank scenarioDamager rfl
    (Or.inr (by norm_num [scenarioDamager, scenarioTank]))
    (by norm_num [scenarioDamager]) (by norm_num [scenarioTank])
    (by norm_num [ATank.FPSSCALE, scenarioTank])
    ⟨1 / 130, by norm_num, by
      simp only [knockbackEngine, FVector.divide, FVector.scale]
      norm_num [div_eq_mul_inv]⟩

/-- The health after a `Damage` call on a living tank. -/
theorem Damage_currentHealth (e : Engine) (t : ATank) (d : ATankDamager)
    (halive : t.IsAlive = true) :
    (t.Damage e d).currentHealth = t.currentHealth -
      t.damageFalloff (e.Dist t.Location d.Location) * d.damageMultiplier := by
  simp only [ATank.Damage, ATank.enter, ATank.emit, ATank.damageFalloff, halive,
    not_true_eq_false, if_false]
  split_ifs <;> simp [ATank.Die, ATank.enter, ATank.emit]

/-- C15, as stated, fails: the living scenario tank (damage range (100, 500))
hit from distance 500 with multiplier 2 keeps its health 1. -/
theorem C15_health_decreasing_counterexample :
    scenarioTank.IsAlive = true ∧
    scenarioEngine.Dist scenarioTank.Location ⟨500, 0, 0⟩ = 500 ∧
    (scenarioTank.Damage scenarioEngine ⟨⟨500, 0, 0⟩, 2, 0⟩).currentHealth = 1 ∧
    ¬ (scenarioTank.Damage scenarioEngine ⟨⟨500, 0, 0⟩, 2, 0⟩).currentHealth <
      scenarioTank.currentHealth := by
  have h : (scenarioTank.Damage scenarioEngine ⟨⟨500, 0, 0⟩, 2, 0⟩).currentHealth = 1 := by
    rw [Damage_currentHealth _ _ _ rfl]
    norm_num [ATank.damageFalloff, MapRangeClamped, Clamp, scenarioEngine, scenarioTank]
  refine ⟨rfl, by norm_num [scenarioEngine, scenarioTank], h, ?_⟩
  rw [h]
  norm_num [scenarioTank]

/-- C15, amended: for a `Damage` call on a living tank with damage range
min < max and a non-negative damage multiplier the health does not increase,
and it strictly decreases when the damager is closer than the range maximum
and the multiplier is positive. -/
theorem C15_health_decreasing_amended (e : Engine) (t : ATank) (d : ATankDamager)
    (halive : t.IsAlive = true)
    (hrange : t.damageDistMinMax.X < t.damageDistMinMax.Y)
    (hmult : 0 ≤ d.damageMultiplier) :
    (t.Damage e d).currentHealth ≤ t.currentHealth ∧
    (e.Dist t.Location d.Location < t.damageDistMinMax.Y → 0 < d.damageMultiplier →
      (t.Damage e d).currentHealth < t.currentHealth) := by
  rw [Damage_currentHealth e t d halive]
  have heq : t.damageFalloff (e.Dist t.Location d.Location) =
      falloffSpec t.damageDistMinMax.X t.damageDistMinMax.Y (e.Dist t.Location d.Location) :=
    MapRangeClamped_eq_falloffSpec hrange _
  have hmem := falloffSpec_mem hrange (e.Dist t.Location d.Location)
  rw [heq]
  constructor
  · have := mul_nonneg hmem.1 hmult
    linarith
  · intro hd hpos
    have hf : 0 < falloffSpec t.damageDistMinMax.X t.damageDistMinMax.Y
        (e.Dist t.Location d.Location) := by
      unfold falloffSpec
      split_ifs with h1 h2
      · exact zero_lt_one
      · exact absurd hd (not_lt.mpr h2)
      · exact div_pos (by linarith) (by linarith)
    have := mul_pos hf hpos
    linarith

/-- C15 amended, at a concrete call: the scenario tank hit from distance 300
with multiplier 2 loses health. -/
theorem C15_health_decreasing_amended_witness :
    (scenarioTank.Damage scenarioEngine ⟨⟨300, 0, 0⟩, 2, 0⟩).currentHealth <
      scenarioTank.currentHealth :=
  (C15_health_decreasing_amended scenarioEngine scenarioTank ⟨⟨300, 0, 0⟩, 2, 0⟩ rfl
    (by norm_num [scenarioTank]) (by norm_num)).2
    (by norm_num [scenarioEngine, scenarioTank]) (by norm_num)

/-! ## Further claims about the AI fire request -/

/-- The delay rolled by a fire request that passes the gate. -/
theorem Fire_pass_minShotDelay (e : Engine) (c : ATankAIController) (tank : ATank) (now : ℚ)
    (pos : FVector) (FRandRange : ℚ → ℚ → ℚ)
    (h : now - c.LastShotTime > c.minShotDelay) :
    (ATankAIController.Fire e c tank now pos FRandRange).1.minShotDelay =
      FRandRange (GetMappedRangeValueClamped ⟨0.25, 1⟩ ⟨1.5, 0.5⟩
        (ATankAIController.Fire e c tank now pos FRandRange).2.currentPercent) 1.5 := by
  unfold ATankAIController.Fire
  rw [if_pos h]

/-- The charge left by a fire request that passes the gate on a tank with
control enabled: `Fire()` has reset it to 0. -/
theorem Fire_pass_currentPercent (e : Engine) (c : ATankAIController) (tank : ATank) (now : ℚ)
    (pos : FVector) (FRandRange : ℚ → ℚ → ℚ)
    (h : now - c.LastShotTime > c.minShotDelay) (hc : tank.controlEnabled = true) :
    (ATankAIController.Fire e c tank now pos FRandRange).2.currentPercent = 0 := by
  unfold ATankAIController.Fire
  rw [if_pos h]
  simp [ATank.Fire, ATank.enter, ATank.emit, hc]

/-- On a tank with control enabled, the lower bound handed to the random draw
by a fire request that passes the gate is 1.5. -/
theorem Fire_pass_lowerBound (e : Engine) (c : ATankAIController) (tank : ATank) (now : ℚ)
    (pos : FVector) (h : now - c.LastShotTime > c.minShotDelay)
    (hc : tank.controlEnabled = true) :
    (ATankAIController.Fire e c tank now pos (fun lo _ => lo)).1.minShotDelay = 3 / 2 := by
  rw [Fire_pass_minShotDelay e c tank now pos _ h,
    Fire_pass_currentPercent e c tank now pos _ h hc]
  norm_num [GetMappedRangeValueClamped, MapRangeClamped, Clamp]

/-- On a tank with control enabled, a fire request that passes the gate rolls
the delay between 1.5 and 1.5, whatever the target. -/
theorem Fire_pass_delay_controlEnabled (e : Engine) (c : ATankAIController) (tank : ATank)
    (now : ℚ) (pos : FVector) (FRandRange : ℚ → ℚ → ℚ)
    (h : now - c.LastShotTime > c.minShotDelay) (hc : tank.controlEnabled = true) :
    (ATankAIController.Fire e c tank now pos FRandRange).1.minShotDelay =
      FRandRange (3 / 2) (3 / 2) := by
  rw [Fire_pass_minShotDelay e c tank now pos _ h,
    Fire_pass_currentPercent e c tank now pos _ h hc]
  norm_num [GetMappedRangeValueClamped, MapRangeClamped, Clamp]

/-- C16 asks for a lower bound of the re-rolled delay that depends on the
distance to the target and differs between some two distances.  The code
evaluated: the scenario controller fires from the scenario tank (control
enabled) at a target 100 units away and at a target 3000 units away; the two
shots differ in strength (muzzle speeds 2473/2 and 2295), but in both calls,
and for every target and every draw, the delay is rolled between 1.5 and 1.5,
because `tank->currentPercent` is read after `tank->Fire()` has reset it to 0:
read off with a draw that returns its lower bound, no two targets give
different lower bounds. -/
theorem C16_shot_delay_failing_input :
    scenarioTank.controlEnabled = true ∧
    (ATankAIController.Fire scenarioEngine scenarioController scenarioTank 2 ⟨100, 0, 0⟩
      (fun lo _ => lo)).2.effects =
        [Effect.SapwnBullet (2473 / 2), Effect.SetChargeBar 0,
          Effect.ChargeShotBarSetVisibility false] ∧
    (ATankAIController.Fire scenarioEngine scenarioController scenarioTank 2 ⟨3000, 0, 0⟩
      (fun lo _ => lo)).2.effects =
        [Effect.SapwnBullet 2295, Effect.SetChargeBar 0,
          Effect.ChargeShotBarSetVisibility false] ∧
    (ATankAIController.Fire scenarioEngine scenarioController scenarioTank 2 ⟨100, 0, 0⟩
      (fun lo _ => lo)).1.minShotDelay = 3 / 2 ∧
    (ATankAIController.Fire scenarioEngine scenarioController scenarioTank 2 ⟨3000, 0, 0⟩
      (fun lo _ => lo)).1.minShotDelay = 3 / 2 ∧
    (∀ (pos : FVector) (FRandRange : ℚ → ℚ → ℚ),
      (ATankAIController.Fire scenarioEngine scenarioController scenarioTank 2 pos
        FRandRange).1.minShotDelay = FRandRange (3 / 2) (3 / 2)) ∧
    ¬ ∃ p1 p2 : FVector,
      (ATankAIController.Fire scenarioEngine scenarioController scenarioTank 2 p1
        (fun lo _ => lo)).1.minShotDelay ≠
      (ATankAIController.Fire scenarioEngine scenarioController scenarioTank 2 p2
        (fun lo _ => lo)).1.minShotDelay := by
  have hgate : (2 : ℚ) - scenarioController.LastShotTime > scenarioController.minShotDelay := by
    norm_num [scenarioController]
  have hall : ∀ p : FVector,
      (ATankAIController.Fire scenarioEngine scenarioController scenarioTank 2 p
        (fun lo _ => lo)).1.minShotDelay = 3 / 2 :=
    fun p => Fire_pass_lowerBound scenarioEngine scenarioController scenarioTank 2 p hgate rfl
  refine ⟨rfl, ?_, ?_, hall _, hall _, ?_, ?_⟩
  · norm_num [ATankAIController.Fire, ATank.Fire, ATank.enter, ATank.emit,
      GetMappedRangeValueClamped, MapRangeClamped, Clamp, scenarioController, scenarioTank,
      scenarioEngine]
  · norm_num [ATankAIController.Fire, ATank.Fire, ATank.enter, ATank.emit,
      GetMappedRangeValueClamped, MapRangeClamped, Clamp, scenarioController, scenarioTank,
      scenarioEngine]
  · intro pos FRandRange
    exact Fire_pass_delay_controlEnabled scenarioEngine scenarioController scenarioTank 2 pos
      FRandRange hgate rfl
  · rintro ⟨p1, p2, hne⟩
    exact hne ((hall p1).trans (hall p2).symm)

/-! ## Further claims about `DriveTick` -/

/-- A fire request from a tick method does not change the behaviour state. -/
theorem FireFromTick_state (e : Engine) (w : World) (c : ATankAIController) (tank : ATank)
    (pos : FVector) :
    (ATankAIController.FireFromTick e w c tank pos).1.state = c.state := by
  unfold ATankAIController.FireFromTick ATankAIController.Fire
  split_ifs <;> rfl

/-- Driving along a two-point path whose second point is less than 200 units
away switches states. -/
theorem DriveAlong_two (e : Engine) (c : ATankAIController) (tank : ATank)
    (pos p0 p1 : FVector) (h : e.Dist pos p1 < 200) :
    (ATankAIController.DriveAlong e c tank pos [p0, p1]).1 = c.invert_mode := by
  simp [ATankAIController.DriveAlong, h]

/-- Driving along any other path leaves the controller as it is. -/
theorem DriveAlong_other (e : Engine) (c : ATankAIController) (tank : ATank)
    (pos : FVector) (path : List FVector)
    (h : ∀ p0 p1, path = [p0, p1] → ¬ e.Dist pos p1 < 200) :
    (ATankAIController.DriveAlong e c tank pos path).1 = c := by
  match path, h with
  | [], _ => simp [ATankAIController.DriveAlong]
  | [_], _ => simp [ATankAIController.DriveAlong]
  | [p0, p1], h =>
    have := h p0 p1 rfl
    simp [ATankAIController.DriveAlong, this]
  | _ :: _ :: _ :: _, _ => simp [ATankAIController.DriveAlong]

/-- The state after a `DriveTick` that pursues an opponent less than 1000
units away along a path the path finder returned: the "too close" toggle is
followed by whatever driving along the path does. -/
theorem DriveTick_close_state (e : Engine) (w : World) (c : ATankAIController) (tank : ATank)
    (closest : ATank) (path : List FVector)
    (hclosest : ATankAIController.GetClosestTank e tank w.tanks = some closest)
    (hpursue : c.pursueInDriving = true)
    (hnear : e.Dist closest.Location tank.Location < 1000)
    (hpath : w.FindPathSync tank.Location closest.Location = some path) :
    (ATankAIController.DriveTick e w c tank).1.state =
      (ATankAIController.DriveAlong e c.invert_mode tank tank.Location path).1.state := by
  have hgoal : ATankAIController.DriveGoal e w c tank = (closest.Location, c.invert_mode) := by
    simp [ATankAIController.DriveGoal, hclosest, hpursue, hnear]
  simp only [ATankAIController.DriveTick, hgoal, hpath, hclosest]
  split_ifs
  · rw [FireFromTick_state]
  · rfl

/-- C17, as stated, fails: the fleeing scenario controller pursuing an
opponent 1 unit away, with the path finder returning the straight two-point
path to it, toggles twice in the tick and is still Fleeing when it ends. -/
theorem C17_flee_abandon_counterexample :
    fleeingController.state = State.Fleeing ∧
    fleeingController.pursueInDriving = true ∧
    ATankAIController.GetClosestTank scenarioEngine scenarioTank (openWorld [tankAt 1 1]).tanks =
      some (tankAt 1 1) ∧
    scenarioEngine.Dist (tankAt 1 1).Location scenarioTank.Location < 1000 ∧
    (openWorld [tankAt 1 1]).FindPathSync scenarioTank.Location (tankAt 1 1).Location =
      some [scenarioTank.Location, (tankAt 1 1).Location] ∧
    (ATankAIController.DriveTick scenarioEngine (openWorld [tankAt 1 1]) fleeingController
      scenarioTank).1.state = State.Fleeing := by
  have hclosest : ATankAIController.GetClosestTank scenarioEngine scenarioTank
      (openWorld [tankAt 1 1]).tanks = some (tankAt 1 1) := by
    norm_num [ATankAIController.GetClosestTank, openWorld, tankAt, scenarioTank, scenarioEngine]
  have hnear : scenarioEngine.Dist (tankAt 1 1).Location scenarioTank.Location < 1000 := by
    norm_num [tankAt, scenarioTank, scenarioEngine]
  refine ⟨rfl, rfl, hclosest, hnear, rfl, ?_⟩
  rw [DriveTick_close_state scenarioEngine (openWorld [tankAt 1 1]) fleeingController
    scenarioTank (tankAt 1 1) [scenarioTank.Location, (tankAt 1 1).Location] hclosest rfl hnear
    rfl, DriveAlong_two]
  · rfl
  · norm_num [tankAt, scenarioTank, scenarioEngine]

/-- C17, amended: a `DriveTick` in state Fleeing with `pursueInDriving` true, in
which `GetClosestTank` returns an opponent that is less than 1000 units from
the tank and the path query towards that opponent succeeds, ends in state
Fighting, unless the returned path has exactly two points and the second is
less than 200 units from the tank: then the end-of-path check toggles the
state once more and the tick ends in state Fleeing. -/
theorem C17_flee_abandon_amended (e : Engine) (w : World) (c : ATankAIController)
    (tank : ATank) (closest : ATank) (path : List FVector)
    (hstate : c.state = State.Fleeing)
    (hclosest : ATankAIController.GetClosestTank e tank w.tanks = some closest)
    (hpursue : c.pursueInDriving = true)
    (hnear : e.Dist closest.Location tank.Location < 1000)
    (hpath : w.FindPathSync tank.Location closest.Location = some path) :
    ((∀ p0 p1, path = [p0, p1] → ¬ e.Dist tank.Location p1 < 200) →
      (ATankAIController.DriveTick e w c tank).1.state = State.Fighting) ∧
    (∀ p0 p1, path = [p0, p1] → e.Dist tank.Location p1 < 200 →
      (ATankAIController.DriveTick e w c tank).1.state = State.Fleeing) := by
  have hkey := DriveTick_close_state e w c tank closest path hclosest hpursue hnear hpath
  have hinv : c.invert_mode.state = State.Fighting := (invert_mode_state c).1 hstate
  constructor
  · intro hother
    rw [hkey, DriveAlong_other e _ tank tank.Location path hother]
    exact hinv
  · intro p0 p1 hp hd
    rw [hkey, hp, DriveAlong_two e _ tank tank.Location p0 p1 hd]
    exact (invert_mode_state c.invert_mode).2 hinv

/-- C17 amended, at a concrete tick: with `GetClosestTank` returning the
opponent 500 units away and the straight two-point path to it, the fleeing
scenario controller ends the tick in state Fighting. -/
theorem C17_flee_abandon_amended_witness :
    (ATankAIController.DriveTick scenarioEngine (openWorld [tankAt 1 500]) fleeingController
      scenarioTank).1.state = State.Fighting :=
  (C17_flee_abandon_amended scenarioEngine (openWorld [tankAt 1 500]) fleeingController
    scenarioTank (tankAt 1 500) [scenarioTank.Location, (tankAt 1 500).Location] rfl
    (by norm_num [ATankAIController.GetClosestTank, openWorld, tankAt, scenarioTank,
      scenarioEngine])
    rfl (by norm_num [tankAt, scenarioTank, scenarioEngine]) rfl).1
    (by
      intro p0 p1 hp
      simp only [List.cons.injEq, and_true] at hp
      rw [← hp.2]
      norm_num [tankAt, scenarioTank, scenarioEngine])

/-! ## The moving hooks of `ATank::Tick` -/

/-- One `Tick`: the effects it adds and the flag it leaves. -/
theorem Tick_hooks (t : ATank) (DeltaTime velocityLength : ℚ) :
    (t.Tick DeltaTime velocityLength).effects.drop t.effects.length =
      (if |velocityLength| > 0.5 ∧ t.isMoving = false then [Effect.MovingAction]
        else if ¬ |velocityLength| > 0.5 ∧ t.isMoving = true then [Effect.StopMovingAction]
        else []) ∧
    (t.Tick DeltaTime velocityLength).isMoving = decide (|velocityLength| > 0.5) ∧
    (t.Tick DeltaTime velocityLength).effects =
      t.effects ++ (t.Tick DeltaTime velocityLength).effects.drop t.effects.length := by
  unfold ATank.Tick
  by_cases hv : |velocityLength| > 0.5 <;> cases hm : t.isMoving <;>
    simp [ATank.emit, hv, hm]

theorem tickHooks_eq_spec (frames : List (ℚ × ℚ)) :
    ∀ t : ATank, t.tickHooks frames = edgeHooksSpec t.isMoving (frames.map fun f => |f.2|) := by
  induction frames with
  | nil => intro t; rfl
  | cons f fs ih =>
    intro t
    simp only [ATank.tickHooks, List.map_cons, edgeHooksSpec]
    rw [ih, (Tick_hooks t f.1 f.2).1, (Tick_hooks t f.1 f.2).2.1]

theorem ticks_effects (frames : List (ℚ × ℚ)) :
    ∀ t : ATank, (t.ticks frames).effects = t.effects ++ (t.tickHooks frames).flatten := by
  induction frames with
  | nil => intro t; simp [ATank.ticks, ATank.tickHooks]
  | cons f fs ih =>
    intro t
    have hrun : t.ticks (f :: fs) = (t.Tick f.1 f.2).ticks fs := rfl
    rw [hrun, ih]
    simp only [ATank.tickHooks, List.flatten_cons]
    rw [← List.append_assoc, ← (Tick_hooks t f.1 f.2).2.2]

theorem edgeHooksSpec_length (speeds : List ℚ) :
    ∀ prevMoving : Bool, ∀ h ∈ edgeHooksSpec prevMoving speeds, h.length ≤ 1 := by
  induction speeds with
  | nil => intro _ h hh; simp [edgeHooksSpec] at hh
  | cons v vs ih =>
    intro prevMoving h hh
    simp only [edgeHooksSpec, List.mem_cons] at hh
    rcases hh with hh | hh
    · rw [hh]; split_ifs <;> simp
    · exact ih _ h hh

theorem edgeHooksSpec_alternates (speeds : List ℚ) :
    ∀ prevMoving : Bool,
      alternatesFrom (!prevMoving) (edgeHooksSpec prevMoving speeds).flatten := by
  induction speeds with
  | nil => intro _; simp [edgeHooksSpec, alternatesFrom]
  | cons v vs ih =>
    intro prevMoving
    have ihv := ih (decide (v > 0.5))
    simp only [edgeHooksSpec, List.flatten_cons]
    by_cases hv : v > 0.5
    · rw [decide_eq_true hv] at ihv ⊢
      cases prevMoving
      · simpa [hv, alternatesFrom] using ihv
      · simpa [hv, alternatesFrom] using ihv
    · rw [decide_eq_false hv] at ihv ⊢
      cases prevMoving
      · simpa [hv, alternatesFrom] using ihv
      · simpa [hv, alternatesFrom] using ihv

/-- C18: over every sequence of `Tick` calls starting with `isMoving = false`,
each tick issues the effects the edge-triggered wording prescribes (the
started-moving hook exactly when its speed is above 0.5 and the previous
tick's was not, or it is the first tick; the stopped-moving hook exactly when
its speed is not above 0.5 and the previous tick's was), at most one hook per
tick, and over the whole sequence the hooks strictly alternate, beginning with
started-moving. -/
theorem C18_moving_hooks_edge_triggered (t : ATank) (frames : List (ℚ × ℚ))
    (hstart : t.isMoving = false) :
    t.tickHooks frames = edgeHooksSpec false (frames.map fun f => |f.2|) ∧
    (∀ h ∈ t.tickHooks frames, h.length ≤ 1) ∧
    (t.ticks frames).effects = t.effects ++ (t.tickHooks frames).flatten ∧
    alternatesFrom true (t.tickHooks frames).flatten := by
  have hspec := tickHooks_eq_spec frames t
  rw [hstart] at hspec
  refine ⟨hspec, ?_, ticks_effects frames t, ?_⟩
  · rw [hspec]; exact edgeHooksSpec_length _ false
  · rw [hspec]; exact edgeHooksSpec_alternates _ false

/-- C18 on a concrete run: speeds 1, 2, 0.25, 0, 3 from rest fire
started-moving, nothing, stopped-moving, nothing, started-moving. -/
theorem C18_moving_hooks_edge_triggered_witness :
    scenarioTank.tickHooks [(1, 1), (1, 2), (1, 1 / 4), (1, 0), (1, 3)] =
      [[Effect.MovingAction], [], [Effect.StopMovingAction], [], [Effect.MovingAction]] := by
  rw [(C18_moving_hooks_edge_triggered scenarioTank
    [(1, 1), (1, 2), (1, 1 / 4), (1, 0), (1, 3)] rfl).1]
  norm_num [edgeHooksSpec, abs_div]

/-! ## The closest-tank query, as the code computes it -/

theorem GetClosestTank_loop (e : Engine) (tank : ATank) (tanks : List ATank) :
    ∀ closest : Option ATank,
      tanks.foldl
          (fun (loop : Option ATank × ℚ) (t : ATank) =>
            if t.ptr = tank.ptr then loop
            else
              let distance := e.Dist tank.Location t.Location
              if distance < loop.2 then (some t, loop.2) else loop)
          (closest, 10000) =
        (((tanks.filter (withinReach e tank)).getLast?).or closest, 10000) := by
  induction tanks with
  | nil => intro closest; simp
  | cons t ts ih =>
    intro closest
    rw [List.foldl_cons]
    by_cases hp : t.ptr = tank.ptr
    · have hw : withinReach e tank t = false := by simp [withinReach, hp]
      simp only [hp, if_true]
      rw [ih, List.filter_cons_of_neg (by simp [hw])]
    · by_cases hd : e.Dist tank.Location t.Location < 10000
      · have hw : withinReach e tank t = true := by simp [withinReach, hp, hd]
        simp only [hp, if_false, hd, if_true]
        rw [ih, List.filter_cons_of_pos hw, List.getLast?_cons]
        cases (ts.filter (withinReach e tank)).getLast? <;> simp
      · have hw : withinReach e tank t = false := by simp [withinReach, hd]
        simp only [hp, if_false, hd]
        rw [ih, List.filter_cons_of_neg (by simp [hw])]

/-- C20: `GetClosestTank` returns the last tank, in roster iteration order,
among the tanks other than the controlled one that lie strictly within 10000
units of it.  So it returns no tank if and only if no other tank lies
strictly within 10000 units; a returned tank is never the controlled one and
is strictly within 10000 units; opponents that are all 10000 or more units
away are reported as no opponent. -/
theorem C20_closest_is_last_within_reach (e : Engine) (tank : ATank) (tanks : List ATank) :
    ATankAIController.GetClosestTank e tank tanks =
      (tanks.filter (withinReach e tank)).getLast? ∧
    (ATankAIController.GetClosestTank e tank tanks = none ↔
      ∀ t ∈ tanks, t.ptr ≠ tank.ptr → ¬ e.Dist tank.Location t.Location < 10000) ∧
    (∀ r, ATankAIController.GetClosestTank e tank tanks = some r →
      r ∈ tanks ∧ r.ptr ≠ tank.ptr ∧ e.Dist tank.Location r.Location < 10000) := by
  have hres : ATankAIController.GetClosestTank e tank tanks =
      (tanks.filter (withinReach e tank)).getLast? := by
    unfold ATankAIController.GetClosestTank
    rw [GetClosestTank_loop]
    simp
  refine ⟨hres, ?_, ?_⟩
  · rw [hres, List.getLast?_eq_none_iff, List.filter_eq_nil_iff]
    constructor
    · intro h t ht hne hd
      exact h t ht (by simp [withinReach, hne, hd])
    · intro h t ht hw
      simp only [withinReach, decide_eq_true_eq] at hw
      exact h t ht hw.1 hw.2
  · intro r hr
    rw [hres] at hr
    have hmem : r ∈ tanks.filter (withinReach e tank) := List.mem_of_getLast?_eq_some hr
    rw [List.mem_filter] at hmem
    have hw := hmem.2
    simp only [withinReach, decide_eq_true_eq] at hw
    exact ⟨hmem.1, hw.1, hw.2⟩

/-- C20 on two concrete rosters: opponents at 10000 and 20000 units are
reported as no opponent; of opponents at 50, 30 and 80 units the last one in
iteration order is returned. -/
theorem C20_closest_is_last_within_reach_witness :
    ATankAIController.GetClosestTank scenarioEngine scenarioTank
        [tankAt 1 10000, tankAt 2 20000] = none ∧
      ATankAIController.GetClosestTank scenarioEngine scenarioTank scenarioRoster =
        some (tankAt 3 80) := by
  constructor
  · rw [(C20_closest_is_last_within_reach scenarioEngine scenarioTank
      [tankAt 1 10000, tankAt 2 20000]).2.1]
    intro t ht _
    simp only [List.mem_cons, List.mem_singleton, List.not_mem_nil, or_false] at ht
    rcases ht with ht | ht <;> rw [ht] <;> norm_num [tankAt, scenarioTank, scenarioEngine]
  · rw [(C20_closest_is_last_within_reach scenarioEngine scenarioTank scenarioRoster).1]
    norm_num [scenarioRoster, withinReach, tankAt, scenarioTank, scenarioEngine, List.filter]

/-! ## The charge stays in [0,1] -/

theorem Fire_chargeInvariant (t : ATank) (h : chargeInvariant t) :
    chargeInvariant t.Fire := by
  obtain ⟨h0, h1, hr, hf⟩ := h
  unfold ATank.Fire
  simp only [ATank.enter, ATank.emit]
  split_ifs
  · exact ⟨le_refl _, zero_le_one, hr, hf⟩
  · exact ⟨h0, h1, hr, hf⟩

theorem ChargeShot_chargeInvariant (t : ATank) (speed : ℚ) (h : chargeInvariant t) :
    chargeInvariant (t.ChargeShot speed) := by
  obtain ⟨h0, h1, hr, hf⟩ := h
  by_cases hgo : t.controlEnabled = true ∧ speed > 0.1
  · have hinc : 0 ≤ speed * t.chargeRate * t.deltaTime / t.evalNormal := by
      have hs : (0 : ℚ) ≤ speed := by
        have := hgo.2
        norm_num at this
        linarith
      have : speed * t.chargeRate * t.deltaTime / t.evalNormal =
          speed * t.chargeRate * t.FPSSCALE := by
        unfold ATank.FPSSCALE; ring
      rw [this]
      exact mul_nonneg (mul_nonneg hs hr) hf
    by_cases hge : t.currentPercent + speed * t.chargeRate * t.deltaTime / t.evalNormal ≥ 1
    · simp only [ATank.ChargeShot, ATank.enter, ATank.emit, ATank.Fire, hgo, hge]
      simp only [gt_iff_lt, and_self, if_true]
      exact ⟨le_refl _, zero_le_one, hr, hf⟩
    · simp only [ATank.ChargeShot, ATank.enter, ATank.emit, hgo, hge]
      simp only [gt_iff_lt, and_self, if_true, if_false]
      exact ⟨by show 0 ≤ t.currentPercent + _; linarith,
        le_of_lt (not_le.mp hge), hr, hf⟩
  · simp only [ATank.ChargeShot, ATank.enter, hgo, if_false]
    exact ⟨h0, h1, hr, hf⟩

theorem act_chargeInvariant (e : Engine) (t : ATank) (a : Action) (h : chargeInvariant t) :
    chargeInvariant (t.act e a) := by
  cases a with
  | Move amount =>
    obtain ⟨h0, h1, hr, hf⟩ := h
    simp only [ATank.act, ATank.Move, ATank.enter, ATank.emit]
    split_ifs <;> exact ⟨h0, h1, hr, hf⟩
  | Turn amount =>
    obtain ⟨h0, h1, hr, hf⟩ := h
    simp only [ATank.act, ATank.Turn, ATank.enter, ATank.emit]
    split_ifs <;> exact ⟨h0, h1, hr, hf⟩
  | ChargeShot speed => exact ChargeShot_chargeInvariant t speed h
  | Fire => exact Fire_chargeInvariant t h
  | Damage d =>
    obtain ⟨h0, h1, hr, hf⟩ := h
    simp only [ATank.act, ATank.Damage, ATank.enter, ATank.emit, ATank.Die]
    split_ifs <;> exact ⟨h0, h1, hr, hf⟩

theorem requestFire_chargeInvariant (e : Engine) (s : ATankAIController × ATank)
    (r : FireRequest) (h : chargeInvariant s.2) :
    chargeInvariant (requestFire e s r).2 := by
  unfold requestFire ATankAIController.Fire
  split_ifs
  · apply Fire_chargeInvariant
    obtain ⟨_, _, hr, hf⟩ := h
    have hc := Clamp_mem ((e.Dist s.2.Location r.pos - s.1.distanceToPower.X) /
      (s.1.distanceToPower.Y - s.1.distanceToPower.X))
    refine ⟨?_, ?_, hr, hf⟩
    · show 0 ≤ GetMappedRangeValueClamped _ _ _
      simp only [GetMappedRangeValueClamped, MapRangeClamped]
      norm_num
      nlinarith [hc.1, hc.2]
    · show GetMappedRangeValueClamped _ _ _ ≤ 1
      simp only [GetMappedRangeValueClamped, MapRangeClamped]
      norm_num
      nlinarith [hc.1, hc.2]
  · exact h

theorem step_chargeInvariant (e : Engine) (s : ATankAIController × ATank) (op : Op)
    (h : chargeInvariant s.2) : chargeInvariant (step e s op).2 := by
  cases op with
  | act a => exact act_chargeInvariant e s.2 a h
  | Die => exact h
  | SetupTank => exact h
  | AIFire r => exact requestFire_chargeInvariant e s r h

theorem steps_chargeInvariant (e : Engine) (ops : List Op) :
    ∀ s : ATankAIController × ATank, chargeInvariant s.2 →
      chargeInvariant (steps e s ops).2 := by
  induction ops with
  | nil => intro s h; exact h
  | cons op rest ih =>
    intro s h
    exact ih (step e s op) (step_chargeInvariant e s op h)

/-- C19: starting from charge 0, with a non-negative charge rate and frame
factor, after every sequence of `ChargeShot`, `Fire`, `Move`, `Turn`, `Damage`,
`Die`, `SetupTank` calls and AI fire requests the tank's charge satisfies
`0 <= currentPercent <= 1`. -/
theorem C19_charge_in_unit_interval (e : Engine) (c : ATankAIController) (t : ATank)
    (ops : List Op) (hstart : t.currentPercent = 0) (hrate : 0 ≤ t.chargeRate)
    (hframe : 0 ≤ t.FPSSCALE) :
    0 ≤ (steps e (c, t) ops).2.currentPercent ∧ (steps e (c, t) ops).2.currentPercent ≤ 1 := by
  have h := steps_chargeInvariant e ops (c, t)
    ⟨by rw [hstart], by rw [hstart]; exact zero_le_one, hrate, hframe⟩
  exact ⟨h.1, h.2.1⟩

/-- C19 on a concrete run: the scenario tank charges by 0.5, is asked to fire
by its controller at time 2, is killed, and is asked to fire again at time 10;
the last request writes the charge 93/200 that the dead tank keeps. -/
theorem C19_charge_in_unit_interval_witness :
    (steps scenarioEngine (scenarioController, scenarioTank)
      [Op.act (Action.ChargeShot 0.5), Op.AIFire (requestAt 2),
        Op.act (Action.Damage ⟨⟨100, 0, 0⟩, 2, 0⟩), Op.AIFire (requestAt 10)]).2.currentPercent
        = 93 / 200 ∧
    0 ≤ (steps scenarioEngine (scenarioController, scenarioTank)
      [Op.act (Action.ChargeShot 0.5), Op.AIFire (requestAt 2),
        Op.act (Action.Damage ⟨⟨100, 0, 0⟩, 2, 0⟩), Op.AIFire (requestAt 10)]).2.currentPercent ∧
    (steps scenarioEngine (scenarioController, scenarioTank)
      [Op.act (Action.ChargeShot 0.5), Op.AIFire (requestAt 2),
        Op.act (Action.Damage ⟨⟨100, 0, 0⟩, 2, 0⟩), Op.AIFire (requestAt 10)]).2.currentPercent
        ≤ 1 := by
  have h := C19_charge_in_unit_interval scenarioEngine scenarioController scenarioTank
    [Op.act (Action.ChargeShot 0.5), Op.AIFire (requestAt 2),
      Op.act (Action.Damage ⟨⟨100, 0, 0⟩, 2, 0⟩), Op.AIFire (requestAt 10)]
    rfl (by norm_num [scenarioTank]) (by norm_num [ATank.FPSSCALE, scenarioTank])
  refine ⟨?_, h.1, h.2⟩
  norm_num [steps, step, requestFire, ATank.act, ATankAIController.Fire, ATank.ChargeShot,
    ATank.Fire, ATank.Damage, ATank.Die, ATank.damageFalloff, ATank.enter, ATank.emit,
    GetMappedRangeValueClamped, MapRangeClamped, Clamp, scenarioController, scenarioTank,
    scenarioEngine, requestAt]

end TanksUnreal
